import Mathlib

/-!
Verification of the audit-ai backend's evidence-to-score-to-artifact pipeline.

This file shallowly embeds the TypeScript sources of the repository:
criteria catalogs and catalog selection (`src/config/evaluation-criteria.ts`),
the evaluator's aggregation and verbal-evidence filter (`evaluator.service.ts`
section of the same file), the content-addressed result cache
(`cache.service.ts` section), the spreadsheet renderer
(`src/services/excel.service.ts`, current revision), and the visual-evidence
extractor's retry loop.  JavaScript strings are modelled as Lean `String`
(code points stand in for UTF-16 units; all text handled by the claims is in
the Basic Multilingual Plane, where the two coincide).  JavaScript case
mapping and `\s` are modelled on the ASCII + Latin-1 repertoire, which covers
every character appearing in the catalogs, keywords and scorer labels.
-/

set_option maxHeartbeats 1000000
set_option maxRecDepth 10000

/-! ## JavaScript string primitives -/

/-- Characters matched by JavaScript `\s` (and removed by `String.trim`),
restricted to the code points that occur in the modelled data: space, tab,
newline, carriage return, vertical tab, form feed, and no-break space. -/
def isJsWhitespace (c : Char) : Bool :=
  c.toNat = 32 || c.toNat = 9 || c.toNat = 10 || c.toNat = 13 ||
  c.toNat = 0xb || c.toNat = 0xc || c.toNat = 0xa0

/-- Code-point mapping of `String.prototype.toLowerCase` on the ASCII and
Latin-1 letters (`A`–`Z` and `À`–`Þ` except `×`). -/
def lowerCode (n : ℕ) : ℕ :=
  if 65 ≤ n ∧ n ≤ 90 then n + 32
  else if 192 ≤ n ∧ n ≤ 222 ∧ n ≠ 215 then n + 32
  else n

/-- Code-point mapping of `String.prototype.toUpperCase` on the ASCII and
Latin-1 letters (`a`–`z` and `à`–`þ` except `÷`). -/
def upperCode (n : ℕ) : ℕ :=
  if 97 ≤ n ∧ n ≤ 122 then n - 32
  else if 224 ≤ n ∧ n ≤ 254 ∧ n ≠ 247 then n - 32
  else n

def jsToLowerChar (c : Char) : Char := Char.ofNat (lowerCode c.toNat)

def jsToUpperChar (c : Char) : Char := Char.ofNat (upperCode c.toNat)

/-- `String.prototype.toLowerCase`. -/
def jsToLower (s : String) : String := ⟨s.data.map jsToLowerChar⟩

/-- `String.prototype.toUpperCase`. -/
def jsToUpper (s : String) : String := ⟨s.data.map jsToUpperChar⟩

def jsTrimList (l : List Char) : List Char :=
  ((l.dropWhile isJsWhitespace).reverse.dropWhile isJsWhitespace).reverse

/-- `String.prototype.trim`. -/
def jsTrim (s : String) : String := ⟨jsTrimList s.data⟩

/-- Does `text` start with `pat`? (helper for substring containment). -/
def startsWithSeq : List Char → List Char → Bool
  | [], _ => true
  | _ :: _, [] => false
  | a :: as, b :: bs => a = b && startsWithSeq as bs

/-- Does `pat` occur contiguously inside `text`? -/
def containsSeq (pat : List Char) : List Char → Bool
  | [] => pat.isEmpty
  | c :: rest => startsWithSeq pat (c :: rest) || containsSeq pat rest

/-- `String.prototype.includes`. -/
def jsIncludes (s pat : String) : Bool := containsSeq pat.data s.data

/-- Canonical (NFD) decompositions of the precomposed Latin letters appearing
in the repository's catalogs, keywords and labels: each entry is the
precomposed character, its base letter, and its combining mark (COMBINING
ACUTE ACCENT, COMBINING TILDE or COMBINING DIAERESIS). -/
def nfdDecompositions : List (Char × Char × Char) := [
  ('á', 'a', '́'), ('é', 'e', '́'), ('í', 'i', '́'),
  ('ó', 'o', '́'), ('ú', 'u', '́'), ('ñ', 'n', '̃'),
  ('ü', 'u', '̈'), ('Á', 'A', '́'), ('É', 'E', '́'),
  ('Í', 'I', '́'), ('Ó', 'O', '́'), ('Ú', 'U', '́'),
  ('Ñ', 'N', '̃'), ('Ü', 'U', '̈')]

/-- `normalize('NFD')` on a single character: precomposed letters decompose
into base letter plus combining mark, every other character is its own
decomposition. -/
def nfdChar (c : Char) : List Char :=
  match nfdDecompositions.find? (fun e => e.1 = c) with
  | some e => [e.2.1, e.2.2]
  | none => [c]

/-- The combining marks removed by `replace(/[̀-ͯ]/g, '')`. -/
def isCombiningMark (c : Char) : Bool := 0x300 ≤ c.toNat && c.toNat ≤ 0x36f

/-- One pass of `replace(/\s+/g, ' ')`: every maximal whitespace run becomes
a single space.  The boolean records whether the previous character was
whitespace (i.e. we are inside a run that already emitted its space). -/
def collapseWsAux : Bool → List Char → List Char
  | _, [] => []
  | prevWs, c :: cs =>
    if isJsWhitespace c then
      if prevWs then collapseWsAux true cs
      else ' ' :: collapseWsAux true cs
    else c :: collapseWsAux false cs

/-- The character-list pipeline of `ExcelService.normalizeText`: lowercase,
NFD-decompose, strip combining marks, collapse whitespace runs to single
spaces, trim. -/
def normalizePipeline (l : List Char) : List Char :=
  jsTrimList (collapseWsAux false
    (((l.map jsToLowerChar).flatMap nfdChar).filter (fun c => !isCombiningMark c)))

/-- `ExcelService.normalizeText`. -/
def normalizeText (s : String) : String := ⟨normalizePipeline s.data⟩

/-! ## Criteria catalogs (`src/config/evaluation-criteria.ts`) -/

/-- `points: number | 'n/a'`.  `na` is the runtime string `'n/a'`. -/
inductive Points where
  | num (n : ℕ)
  | na
deriving DecidableEq

/-- A catalog topic.  The advisory `whatToLookFor` text is only interpolated
into the scoring prompt and plays no role in any claim, so it is omitted. -/
structure EvaluationTopic where
  topic : String
  criticality : String
  points : Points
  applies : Bool
deriving DecidableEq

structure EvaluationBlock where
  blockName : String
  topics : List EvaluationTopic
deriving DecidableEq

def FRAUD_CRITERIA : List EvaluationBlock := [
  { blockName := "Falcon", topics := [
      { topic := "Cierre correcto del caso", criticality := "Crítico",
        points := .num 5, applies := true },
      { topic := "Creación y llenado correcto del caso: (creación correcto del caso, selección de casillas, calificación de transacciones, comentarios correctos)",
        criticality := "-", points := .num 10, applies := true },
      { topic := "Ingresa a HOTLIST_APROBAR / Ingresa a HOTLIST_Rechazar",
        criticality := "-", points := .na, applies := false },
      { topic := "Ingresa a HOTLIST_APROBAR", criticality := "-",
        points := .na, applies := false },
      { topic := "Ingresa a HOTLIST_Rechazar", criticality := "-",
        points := .na, applies := false },
      { topic := "Ingreso a HOTLIST_AVISO DE VIAJE", criticality := "-",
        points := .na, applies := false },
      { topic := "Califica correctamente la llamada", criticality := "-",
        points := .na, applies := false } ] },
  { blockName := "Front", topics := [
      { topic := "Codificación correcta del caso", criticality := "Crítico",
        points := .num 5, applies := true },
      { topic := "Llenado correcto del front (caso correcto, comentarios acorde a la gestión)",
        criticality := "-", points := .na, applies := false },
      { topic := "Llenado correcto del front (caso correcto, comentarios acorde a la gestión, tienen afectación/ sin afectación)",
        criticality := "-", points := .num 5, applies := true },
      { topic := "Sube capturas completas", criticality := "-",
        points := .na, applies := false },
      { topic := "Colocar capturas completas y correctas", criticality := "-",
        points := .num 5, applies := true },
      { topic := "Subir Excel", criticality := "-",
        points := .num 5, applies := true },
      { topic := "Califica correctamente la llamada", criticality := "-",
        points := .na, applies := false } ] },
  { blockName := "Vcas", topics := [
      { topic := "Calificación de transacciones", criticality := "-",
        points := .na, applies := false },
      { topic := "Aplica Bypass", criticality := "-",
        points := .na, applies := false },
      { topic := "Bloquea tarjeta", criticality := "Crítico",
        points := .num 5, applies := true },
      { topic := "Califica transacciones", criticality := "-",
        points := .num 5, applies := true },
      { topic := "Calificación de transacciones", criticality := "-",
        points := .na, applies := false },
      { topic := "Valida compras por facturar y cortes para identificar la compra para aclaración.\nValida que las compras no tengan una reversa",
        criticality := "-", points := .na, applies := false } ] },
  { blockName := "Vision", topics := [
      { topic := "Valida pantalla OFAA y CRESP (CVV2 incorrecto, Tarjeta vencida, Fecha de vencimiento incorrecta, TJ Cancelada, etc)",
        criticality := "-", points := .na, applies := false },
      { topic := "Comentarios correctos en ASHI", criticality := "-",
        points := .num 5, applies := true },
      { topic := "Desbloquea tarjeta BLKI, BLKT, BPT0, BNFC", criticality := "-",
        points := .na, applies := false },
      { topic := "Bloqueo correcto", criticality := "Crítico",
        points := .num 7, applies := true } ] },
  { blockName := "VRM", topics := [
      { topic := "Valida compras en ARTD y ARSD", criticality := "-",
        points := .num 5, applies := true },
      { topic := "Calificación de transacciones, comentarios y aplica mantenimiento",
        criticality := "Crítico", points := .num 10, applies := true } ] },
  { blockName := "B.I", topics := [
      { topic := "Crea el Folio Correctamente", criticality := "-",
        points := .num 10, applies := true } ] },
  { blockName := "Manejo de llamada", topics := [
      { topic := "Cumple con el script", criticality := "-",
        points := .num 17, applies := true },
      { topic := "Educación, frases de conexión, comunicación efectiva y escucha activa",
        criticality := "-", points := .num 5, applies := true },
      { topic := "Control de llamada y Puntualidad", criticality := "-",
        points := .num 6, applies := true },
      { topic := "Autentica correctamente", criticality := "-",
        points := .num 11, applies := true } ] } ]

def TH_CONFIRMA_CRITERIA : List EvaluationBlock := [
  { blockName := "Falcon", topics := [
      { topic := "Cierre correcto del caso", criticality := "Crítico",
        points := .num 5, applies := true },
      { topic := "Creación y llenado correcto del caso: (creación correcto del caso, selección de casillas, calificación de transacciones, comentarios correctos)",
        criticality := "-", points := .num 10, applies := true },
      { topic := "Ingresa a HOTLIST_APROBAR / Ingresa a HOTLIST_Rechazar",
        criticality := "-", points := .na, applies := false },
      { topic := "Ingresa a HOTLIST_APROBAR", criticality := "-",
        points := .num 12, applies := true },
      { topic := "Ingresa a HOTLIST_Rechazar", criticality := "-",
        points := .na, applies := false },
      { topic := "Ingreso a HOTLIST_AVISO DE VIAJE", criticality := "-",
        points := .na, applies := false },
      { topic := "Califica correctamente la llamada", criticality := "-",
        points := .na, applies := false } ] },
  { blockName := "Front", topics := [
      { topic := "Codificación correcta del caso", criticality := "Crítico",
        points := .num 5, applies := true },
      { topic := "Llenado correcto del front (caso correcto, comentarios acorde a la gestión)",
        criticality := "-", points := .num 5, applies := true },
      { topic := "Llenado correcto del front (caso correcto, comentarios acorde a la gestión, tienen afectación/ sin afectación)",
        criticality := "-", points := .na, applies := false },
      { topic := "Sube capturas completas", criticality := "-",
        points := .na, applies := false },
      { topic := "Colocar capturas completas y correctas", criticality := "-",
        points := .num 5, applies := true },
      { topic := "Subir Excel", criticality := "-",
        points := .num 5, applies := true },
      { topic := "Califica correctamente la llamada", criticality := "-",
        points := .num 5, applies := true } ] },
  { blockName := "Vcas", topics := [
      { topic := "Calificación de transacciones", criticality := "-",
        points := .num 10, applies := true },
      { topic := "Aplica Bypass", criticality := "-",
        points := .na, applies := false },
      { topic := "Bloquea tarjeta", criticality := "Crítico",
        points := .num 5, applies := true },
      { topic := "Califica transacciones", criticality := "-",
        points := .na, applies := false },
      { topic := "Calificación de transacciones", criticality := "-",
        points := .na, applies := false },
      { topic := "Valida compras por facturar y cortes para identificar la compra para aclaración.\nValida que las compras no tengan una reversa",
        criticality := "-", points := .na, applies := false } ] },
  { blockName := "Vision", topics := [
      { topic := "Valida pantalla OFAA y CRESP (CVV2 incorrecto, Tarjeta vencida, Fecha de vencimiento incorrecta, TJ Cancelada, etc)",
        criticality := "-", points := .na, applies := false },
      { topic := "Comentarios correctos en ASHI", criticality := "-",
        points := .num 5, applies := true },
      { topic := "Desbloquea tarjeta BLKI, BLKT, BPT0, BNFC", criticality := "-",
        points := .num 5, applies := true },
      { topic := "Bloqueo correcto", criticality := "Crítico",
        points := .na, applies := false } ] },
  { blockName := "VRM", topics := [
      { topic := "Valida compras en ARTD y ARSD", criticality := "-",
        points := .na, applies := false },
      { topic := "Calificación de transacciones, comentarios y aplica mantenimiento",
        criticality := "Crítico", points := .num 10, applies := true } ] },
  { blockName := "B.I", topics := [
      { topic := "Crea el Folio Correctamente", criticality := "-",
        points := .na, applies := false } ] },
  { blockName := "Manejo de llamada", topics := [
      { topic := "Cumple con el script", criticality := "-",
        points := .num 17, applies := true },
      { topic := "Educación, frases de conexión, comunicación efectiva y escucha activa",
        criticality := "-", points := .num 5, applies := true },
      { topic := "Control de llamada y Puntualidad", criticality := "-",
        points := .num 6, applies := true },
      { topic := "Autentica correctamente", criticality := "-",
        points := .num 11, applies := true } ] } ]

def MONITOREO_CRITERIA : List EvaluationBlock := [
  { blockName := "Falcon", topics := [
      { topic := "Califica transacciones, Cierre de caso, Selecciona casillas de acción",
        criticality := "-", points := .num 20, applies := true } ] },
  { blockName := "VRM", topics := [
      { topic := "Califica transacciones/Mantenimiento/Comentario",
        criticality := "-", points := .num 8, applies := true } ] },
  { blockName := "Front", topics := [
      { topic := "Ingresa correctamente los datos del front: Calificación, Subcalificación de llamada, Socio, Correo del cliente, Número de caso, 4 dígitos de la tarjeta, Capturas, Comentario, Subir Excel",
        criticality := "-", points := .num 15, applies := true } ] },
  { blockName := "Vcas", topics := [
      { topic := "Califica transacciones / Bloqueo",
        criticality := "-", points := .num 7, applies := true } ] },
  { blockName := "Vision+", topics := [
      { topic := "Comentario en ASHI", criticality := "-",
        points := .num 3, applies := true },
      { topic := "Bloqueo correcto de la tarjeta", criticality := "-",
        points := .num 7, applies := true } ] },
  { blockName := "BI", topics := [
      { topic := "Levantamiento correcto de ticket", criticality := "-",
        points := .num 10, applies := true } ] },
  { blockName := "Manejo de llamada", topics := [
      { topic := "Cumple con el script de llamada", criticality := "-",
        points := .num 5, applies := true },
      { topic := "Control de llamada, empatía y frases de conexión",
        criticality := "-", points := .num 10, applies := true },
      { topic := "Cordialidad/Comunicación efectiva", criticality := "-",
        points := .num 5, applies := true },
      { topic := "Escucha activa", criticality := "-",
        points := .num 10, applies := true },
      { topic := "Solución al contacto", criticality := "-",
        points := .num 5, applies := true } ] },
  { blockName := "Casos críticos", topics := [
      { topic := "Calificación de caso (cierre de caso en falcon)",
        criticality := "Crítico", points := .na, applies := true },
      { topic := "Califica tipo de llamada correctamente (calificación a nivel front)",
        criticality := "Crítico", points := .na, applies := true },
      { topic := "Bloquea tarjeta en V+ correctamente",
        criticality := "Crítico", points := .na, applies := true } ] } ]

/-- `getCriteriaForCallType`: normalize to upper case, trim, then test the
fixed keyword priority list; fall through to the fraud catalog. -/
def getCriteriaForCallType (callType : String) : List EvaluationBlock :=
  let normalizedType := jsTrim (jsToUpper callType)
  if jsIncludes normalizedType "MONITOREO" then MONITOREO_CRITERIA
  else if jsIncludes normalizedType "FRAUDE" then FRAUD_CRITERIA
  else if jsIncludes normalizedType "TH CONFIRMA" ||
          jsIncludes normalizedType "TH_CONFIRMA" then TH_CONFIRMA_CRITERIA
  else FRAUD_CRITERIA

example : getCriteriaForCallType "  monitoreo llamada " = MONITOREO_CRITERIA := by decide
example : getCriteriaForCallType "INBOUND" = FRAUD_CRITERIA := by decide
example : normalizeText "  Codificación  CORRECTA " = "codificacion correcta" := by decide

/-! ## Evaluator aggregation (`evaluateWithEnhancedMatching`) -/

/-- A JavaScript primitive value as produced by the `+` operator: either a
number or a string. -/
inductive JSVal where
  | num (n : ℕ)
  | str (s : String)
deriving DecidableEq

def jsValToString : JSVal → String
  | .num n => toString n
  | .str s => s

/-- JavaScript `+`: numeric addition on two numbers, string concatenation as
soon as either operand is a string. -/
def jsAdd : JSVal → JSVal → JSVal
  | .num x, .num y => .num (x + y)
  | a, b => .str (jsValToString a ++ jsValToString b)

/-- The runtime value of `topic.points` (the `as number` cast in
`evaluateWithEnhancedMatching` does not change the runtime value: `'n/a'`
stays the string `'n/a'`). -/
def pointsToJS : Points → JSVal
  | .num n => .num n
  | .na => .str "n/a"

def JSVal.isNumber : JSVal → Bool
  | .num _ => true
  | .str _ => false

/-- `EvaluatorService.getSystemFromBlock`. -/
def getSystemFromBlock (blockName : String) : String :=
  if blockName = "Falcon" then "FALCON"
  else if blockName = "Front" then "FRONT"
  else if blockName = "Vcas" then "VCAS"
  else if blockName = "Vision" then "VISION"
  else if blockName = "VRM" then "VRM"
  else if blockName = "B.I" then "BI"
  else if blockName = "Manejo de llamada" then "TRANSCRIPCIÓN"
  else blockName

structure TopicToEvaluate where
  block : String
  topic : String
  criticality : String
  maxScore : Points
  system : String
deriving DecidableEq

/-- `topicsToEvaluate` from `evaluateWithEnhancedMatching`: the applicable
topics of the catalog, flattened in catalog order. -/
def topicsToEvaluate (criteria : List EvaluationBlock) : List TopicToEvaluate :=
  criteria.flatMap fun b =>
    (b.topics.filter (fun t => t.applies)).map fun t =>
      { block := b.blockName, topic := t.topic, criticality := t.criticality,
        maxScore := t.points, system := getSystemFromBlock b.blockName }

/-- `maxPossibleScore` from `evaluateWithEnhancedMatching`:
`topicsToEvaluate.reduce((sum, t) => sum + t.maxScore, 0)` under JavaScript
`+` semantics.  This is the value interpolated into the scoring prompt as the
pinned `max_possible_score` response field, which `EvaluatorService.evaluate`
copies into the returned `EvaluationResult`. -/
def maxPossibleScore (criteria : List EvaluationBlock) : JSVal :=
  (topicsToEvaluate criteria).foldl (fun sum t => jsAdd sum (pointsToJS t.maxScore)) (.num 0)

/-- The specification's reading of the denominator: the arithmetic sum of the
numeric `points` of the applicable topics. -/
def specMaxPossibleScore (criteria : List EvaluationBlock) : ℕ :=
  ((topicsToEvaluate criteria).map fun t =>
    match t.maxScore with
    | .num n => n
    | .na => 0).sum

/-! ## Verbal evidence extraction (`extractVerbalEvidence`) -/

structure Utterance where
  speaker : String
  text : String
  start : ℕ
deriving DecidableEq

structure TranscriptResult where
  text : String
  utterances : List Utterance
deriving DecidableEq

/-- The fixed keyword set of `extractVerbalEvidence`. -/
def verbalKeywords : List String := [
  "bloque", "bloqu", "tarjeta",
  "folio", "caso", "número",
  "transacción", "compra", "cargo",
  "confirmo", "confirmó", "reconoce", "reconozco",
  "fraude", "fraudulent",
  "excel", "archivo", "documento",
  "autenticación", "autentica", "verifico", "valido",
  "sistema", "vcas", "falcon", "vision",
  "reposición", "pasos a seguir", "plástico",
  "sucursal", "días", "nueva",
  "callerid", "caller id", "identificador de llamada",
  "otp", "código", "clave", "pin", "token",
  "verificar", "validar", "corroborar",
  "identidad", "identificación",
  "preguntas de seguridad",
  "último cargo", "últimos movimientos", "saldo",
  "código de seguridad"]

/-- `padStart(2, '0')` as used by `formatTime`. -/
def padStart2 (n : ℕ) : String := if n < 10 then "0" ++ toString n else toString n

/-- `EvaluatorService.formatTime`. -/
def formatTime (timeValue : ℕ) : String :=
  let totalSeconds := if timeValue ≥ 1000 then timeValue / 1000 else timeValue
  padStart2 (totalSeconds / 60) ++ ":" ++ padStart2 (totalSeconds % 60)

/-- The retention test of `extractVerbalEvidence`: the lower-cased text
contains one of the fixed keywords and the text exceeds 15 characters. -/
def verbalPred (utt : Utterance) : Bool :=
  (verbalKeywords.any fun kw => jsIncludes (jsToLower utt.text) kw) &&
    decide (15 < utt.text.length)

def formatEvidenceLine (utt : Utterance) : String :=
  "[" ++ formatTime utt.start ++ "] " ++ utt.speaker ++ ": \"" ++ utt.text ++ "\""

/-- `EvaluatorService.extractVerbalEvidence`: the `forEach`/`push` loop over
the transcript's utterances. -/
def extractVerbalEvidence (transcript : TranscriptResult) : List String :=
  transcript.utterances.foldl
    (fun evidence utt =>
      if verbalPred utt then evidence ++ [formatEvidenceLine utt] else evidence) []

/-! ## Idempotence of `normalizeText` (C10) -/

/-- A character that is a fixed point of every character-level stage of the
normalization pipeline: lower-casing, NFD decomposition, and mark
stripping. -/
def CleanCh (c : Char) : Prop :=
  jsToLowerChar c = c ∧ nfdChar c = [c] ∧ isCombiningMark c = false

/-- Whitespace relation used to state that collapsed text has no two
adjacent whitespace characters. -/
def noDoubleWs (a b : Char) : Prop :=
  ¬(isJsWhitespace a = true ∧ isJsWhitespace b = true)

/-! ## Data model shared by the evaluator and the Excel renderer -/

structure AuditInput where
  executiveName : String
  executiveId : String
  callType : String
  clientId : String
  callDate : String
  callDuration : Option String := none
deriving DecidableEq

structure DetailedScore where
  criterion : String
  score : ℚ
  maxScore : ℚ
  observations : String
deriving DecidableEq

structure KeyMoment where
  timestamp : String
  type : String
  description : String
deriving DecidableEq

structure EvaluationResult where
  totalScore : ℚ
  maxPossibleScore : ℚ
  percentage : ℚ
  detailedScores : List DetailedScore
  observations : String
  recommendations : List String
  keyMoments : List KeyMoment
deriving DecidableEq

/-- JavaScript `a || b` on strings: the empty string is falsy. -/
def jsOrStr (a b : String) : String := if a = "" then b else a

/-! ## JS `Map` model: insertion-ordered association list.  `set` on an
existing key updates the value in place (keeping the original position, as a
JS `Map` does); otherwise the pair is appended. -/

def jsMapSet {α : Type} (m : List (String × α)) (k : String) (v : α) :
    List (String × α) :=
  if m.any (fun e => e.1 = k) then
    m.map (fun e => if e.1 = k then (k, v) else e)
  else m ++ [(k, v)]

def jsMapGet {α : Type} (m : List (String × α)) (k : String) : Option α :=
  (m.find? (fun e => e.1 = k)).map (fun e => e.2)

/-! ## Parsing `score.criterion` with `/\[(.*?)\]\s*(.*)/` -/

/-- A character the JS dot `.` does not match (line terminators). -/
def notLineTerm (c : Char) : Bool := c ≠ '\n' && c ≠ '\r'

/-- Scan up to the first `]`, failing on a line terminator (the lazy group
`(.*?)` cannot cross one). -/
def takeUntilRBracket : List Char → Option (List Char × List Char)
  | [] => none
  | c :: cs =>
    if c = ']' then some ([], cs)
    else if notLineTerm c then
      match takeUntilRBracket cs with
      | some (blk, rest) => some (c :: blk, rest)
      | none => none
    else none

/-- Leftmost match of `/\[(.*?)\]\s*(.*)/`: at each candidate `[`, capture the
lazy bracket group, skip `\s*`, then capture `(.*)` up to the line end. -/
def matchCriterion : List Char → Option (List Char × List Char)
  | [] => none
  | c :: cs =>
    if c = '[' then
      match takeUntilRBracket cs with
      | some (blk, rest) =>
        some (blk, (rest.dropWhile isJsWhitespace).takeWhile notLineTerm)
      | none => matchCriterion cs
    else matchCriterion cs

/-- `score.criterion.match(/\[(.*?)\]\s*(.*)/)` followed by `.trim()` on both
captured groups, as done when building the evaluation maps. -/
def parseCriterion (s : String) : Option (String × String) :=
  (matchCriterion s.data).map (fun p => (jsTrim ⟨p.1⟩, jsTrim ⟨p.2⟩))

/-! ## The three reconciliation maps and the five lookup strategies
(`createAnalysisSheet` / `createMonitoreoSheet`, current revision) -/

structure EvalMaps where
  evaluationMap : List (String × DetailedScore)
  byTopicOnly : List (String × DetailedScore)
  byBlockOnly : List (String × DetailedScore)
deriving DecidableEq

/-- The `detailedScores.forEach` loop filling `evaluationMap` (raw and
normalized keys), `evaluationByTopicOnly` and `evaluationByBlockOnly`. -/
def buildEvalMaps (scores : List DetailedScore) : EvalMaps :=
  scores.foldl
    (fun maps score =>
      match parseCriterion score.criterion with
      | none => maps
      | some (block, topic) =>
        let m1 := jsMapSet maps.evaluationMap (block ++ "|" ++ topic) score
        let m2 := jsMapSet maps.byTopicOnly topic score
        let m3 := jsMapSet maps.byBlockOnly block score
        { evaluationMap :=
            jsMapSet m1 (normalizeText block ++ "|" ++ normalizeText topic) score,
          byTopicOnly := m2, byBlockOnly := m3 })
    ⟨[], [], []⟩

/-- Strategy 5: first entry of `evaluationMap` (in insertion order) whose
normalized key contains, or is contained in, the normalized topic text. -/
def lookupByContainment (m : List (String × DetailedScore)) (topicName : String) :
    Option DetailedScore :=
  let normalizedTopic := normalizeText topicName
  (m.find? fun e =>
    jsIncludes (normalizeText e.1) normalizedTopic ||
    jsIncludes normalizedTopic (normalizeText e.1)).map (fun e => e.2)

/-- The shared five-strategy lookup of `getTopicValueWithReason` and
`getTopicResult`: exact key, normalized key, topic only, block only,
substring containment — each tried only if the previous ones failed. -/
def lookupScore (maps : EvalMaps) (blockName topicName : String) :
    Option DetailedScore :=
  match jsMapGet maps.evaluationMap (blockName ++ "|" ++ topicName) with
  | some s => some s
  | none =>
    match jsMapGet maps.evaluationMap
        (normalizeText blockName ++ "|" ++ normalizeText topicName) with
    | some s => some s
    | none =>
      match jsMapGet maps.byTopicOnly topicName with
      | some s => some s
      | none =>
        match jsMapGet maps.byBlockOnly blockName with
        | some s => some s
        | none => lookupByContainment maps.evaluationMap topicName

/-! ## Cell-level outcome of reconciliation -/

inductive CellValue where
  | num (q : ℚ)
  | str (s : String)
deriving DecidableEq

structure TopicCellInfo where
  value : CellValue
  reason : String
  shouldHighlight : Bool
deriving DecidableEq

/-- `getTopicValueWithReason` (Analisis sheet).  `score.justification` is not
a field of the `detailedScores` element type, so `score.observations ||
score.justification || ''` is `score.observations` when non-empty and `''`
otherwise. -/
def getTopicValueWithReason (maps : EvalMaps) (blockName topicName : String)
    (topic : EvaluationTopic) : TopicCellInfo :=
  if !topic.applies then
    { value := .str "n/a",
      reason := "No aplica según el contexto de la llamada",
      shouldHighlight := false }
  else
    match lookupScore maps blockName topicName with
    | none =>
      { value := .str "Sin evaluar",
        reason := "No se encontró evidencia suficiente en transcripción ni en capturas para evaluar este criterio",
        shouldHighlight := false }
    | some score =>
      let justification := jsOrStr score.observations ""
      if score.score = 0 then
        { value := .num 0,
          reason := jsOrStr justification "No cumplió con el criterio",
          shouldHighlight := true }
      else
        { value := .num score.score,
          reason := jsOrStr justification "Cumplió correctamente",
          shouldHighlight := true }

structure TopicResultInfo where
  value : CellValue
  reason : String
  isCritical : Bool
deriving DecidableEq

/-- `getTopicResult` (Monitoreo sheet). -/
def getTopicResult (maps : EvalMaps) (blockName topicName : String)
    (topic : EvaluationTopic) : TopicResultInfo :=
  if !topic.applies then
    { value := .str "n/a", reason := "No aplica", isCritical := false }
  else
    match lookupScore maps blockName topicName with
    | none =>
      { value := .str "Sin evaluar",
        reason := "No se encontró evidencia suficiente",
        isCritical := topic.criticality = "Crítico" }
    | some score =>
      let justification := jsOrStr score.observations ""
      if topic.criticality = "Crítico" then
        if score.score > 0 then
          { value := .str "Cumple",
            reason := jsOrStr justification "Cumplió correctamente",
            isCritical := true }
        else
          { value := .str "No Cumple",
            reason := jsOrStr justification "No cumplió - Error Crítico",
            isCritical := true }
      else
        { value := .num score.score,
          reason := jsOrStr justification "Evaluado",
          isCritical := false }

/-! ## Spreadsheet document model.  Cells carry the claim-relevant
attributes: position, value, font, fill and annotation note.  Alignment,
borders, widths and heights are fixed literals in the source, independent of
the evaluation and of any timestamp, and are not modelled. -/

structure FontSpec where
  bold : Bool := false
  italic : Bool := false
  size : ℕ := 11
  color : Option String := none
deriving DecidableEq

structure NoteRun where
  bold : Bool := false
  size : ℕ := 10
  name : String := "Calibri"
  text : String
deriving DecidableEq

structure Cell where
  row : ℕ
  col : ℕ
  value : CellValue
  font : Option FontSpec := none
  fill : Option String := none
  note : List NoteRun := []
deriving DecidableEq

structure Sheet where
  sheetName : String
  cells : List Cell
  merges : List String
deriving DecidableEq

structure Workbook where
  creator : String
  created : ℕ
  sheetList : List Sheet
deriving DecidableEq

/-- Display of a JS number inside a template string.  The exact JS float
formatting is immaterial to every claim (these strings are opaque cell
contents); Lean's `Rat` printing stands in for it, and agrees with JS on the
integral values exercised by the witnesses. -/
def displayNum (q : ℚ) : String := toString q

/-- `Number.prototype.toFixed(1)`, modelled like `displayNum` (opaque
display string). -/
def toFixed1 (q : ℚ) : String := displayNum q

/-- `padStart(2, '0')` on a string. -/
def padTo2 (s : String) : String :=
  if s.length ≥ 2 then s else if s.length = 1 then "0" ++ s else "00"

def digitsOf (l : List Char) : List Char := l.takeWhile Char.isDigit

/-- Leftmost match of `/(\d+):(\d+)/`. -/
def findTimePair : List Char → Option (List Char × List Char)
  | [] => none
  | c :: cs =>
    if c.isDigit then
      match (c :: cs).dropWhile Char.isDigit with
      | ':' :: rest2 =>
        let r2 := digitsOf rest2
        if r2 = [] then findTimePair cs else some (digitsOf (c :: cs), r2)
      | _ => findTimePair cs
    else findTimePair cs

/-- `ExcelService.formatTimestamp` (current revision). -/
def excelFormatTimestamp (timestamp : String) : String :=
  if timestamp = "" then "00:00"
  else
    match findTimePair timestamp.data with
    | none => timestamp
    | some p => padTo2 ⟨p.1⟩ ++ ":" ++ padTo2 ⟨p.2⟩

/-- The observations cell text of the Analisis sheet: general observations
plus the formatted key-moment list. -/
def analysisObservationsText (evaluation : EvaluationResult) : String :=
  let base := evaluation.observations
  if evaluation.keyMoments.length > 0 then
    base ++ "\n\nMomentos clave de la llamada:\n" ++
      String.join (evaluation.keyMoments.map fun m =>
        "[" ++ excelFormatTimestamp m.timestamp ++ "] " ++ m.type ++ ": " ++
          m.description ++ "\n")
  else base

/-- The observations cell text of the Monitoreo sheet: observations,
numbered recommendations, key moments. -/
def monitoreoObservationsText (evaluation : EvaluationResult) : String :=
  let t0 := jsOrStr evaluation.observations ""
  let t1 :=
    if evaluation.recommendations.length > 0 then
      t0 ++ "\n\nRecomendaciones:\n" ++
        String.join (evaluation.recommendations.enum.map fun p =>
          toString (p.1 + 1) ++ ". " ++ p.2 ++ "\n")
    else t0
  if evaluation.keyMoments.length > 0 then
    t1 ++ "\nMomentos clave:\n" ++
      String.join (evaluation.keyMoments.map fun m =>
        "[" ++ excelFormatTimestamp m.timestamp ++ "] " ++ m.type ++ ": " ++
          m.description ++ "\n")
  else t1

/-- The catalog flattened to `(blockName, topic)` pairs in catalog order,
exactly the iteration order of the `criteria.forEach` loops. -/
def flattenTopics (criteria : List EvaluationBlock) :
    List (String × EvaluationTopic) :=
  criteria.flatMap fun b => b.topics.map (fun t => (b.blockName, t))

def pointsToCell : Points → CellValue
  | .num n => .num (n : ℚ)
  | .na => .str "n/a"

def pointsText : Points → String
  | .num n => displayNum (n : ℚ)
  | .na => "n/a"

/-! ## Analisis sheet (horizontal variant, current revision) -/

def analysisHeaderFont : FontSpec := { bold := true, size := 10, color := some "FFFFFFFF" }

def analysisHeaderCells (auditInput : AuditInput) (evaluation : EvaluationResult) :
    List Cell := [
  { row := 1, col := 1, value := .str "Auditoría de Llamada - Análisis Detallado",
    font := some { bold := true, size := 16, color := some "FF2563EB" } },
  { row := 2, col := 1, value := .str "Ejecutivo:", font := some { bold := true, size := 10 } },
  { row := 2, col := 2, value := .str auditInput.executiveName, font := some { size := 10 } },
  { row := 2, col := 4, value := .str "ID:", font := some { bold := true, size := 10 } },
  { row := 2, col := 5, value := .str auditInput.executiveId, font := some { size := 10 } },
  { row := 2, col := 6, value := .str "Tipo de Llamada:", font := some { bold := true, size := 10 } },
  { row := 2, col := 7, value := .str auditInput.callType, font := some { size := 10 } },
  { row := 3, col := 1, value := .str "Puntuación Total:", font := some { bold := true, size := 10 } },
  { row := 3, col := 2,
    value := .str (displayNum evaluation.totalScore ++ " / " ++ displayNum evaluation.maxPossibleScore),
    font := some { bold := true, size := 11, color := some "FF10B981" } },
  { row := 3, col := 4, value := .str "Porcentaje:", font := some { bold := true, size := 10 } },
  { row := 3, col := 5, value := .str (toFixed1 evaluation.percentage ++ "%"),
    font := some { bold := true, size := 11, color := some "FF10B981" } },
  { row := 3, col := 6, value := .str "Cliente:", font := some { bold := true, size := 10 } },
  { row := 3, col := 7, value := .str (jsOrStr auditInput.clientId "N/A"), font := some { size := 10 } } ]

def analysisColumnHeaders : List (ℕ × String) := [
  (1, "#"), (2, "Bloque"), (3, "Criticidad"), (4, "Criterio"),
  (5, "Puntaje Máximo"), (6, "Puntaje Obtenido"), (7, "Aplica"), (8, "Observaciones")]

/-- The topic header cells of row 4, one column per catalog topic starting
at column 9 (the loop's mutable `colNum`). -/
def analysisTopicHeaderCells : List (String × EvaluationTopic) → ℕ → List Cell
  | [], _ => []
  | p :: rest, col =>
    { row := 4, col := col, value := .str (p.1 ++ ": " ++ p.2.topic),
      font := some analysisHeaderFont, fill := some "FF2563EB" } ::
      analysisTopicHeaderCells rest (col + 1)

def analysisRow4Cells (criteria : List EvaluationBlock) : List Cell :=
  (analysisColumnHeaders.map fun p =>
    { row := 4, col := p.1, value := .str p.2,
      font := some analysisHeaderFont, fill := some "FF2563EB" }) ++
  analysisTopicHeaderCells (flattenTopics criteria) 9 ++
  [{ row := 4, col := 40, value := .str "Observaciones Generales",
     font := some analysisHeaderFont, fill := some "FF2563EB" }]

/-- The conditional fill/font applied to a highlighted (numeric) score value:
full points, zero, or partial, measured against the topic's `points`. -/
def highlightStyling (points : Points) (v : CellValue) :
    Option String × Option FontSpec :=
  match v with
  | .num q =>
    let maxPoints : ℚ := match points with | .num n => (n : ℚ) | .na => 0
    if q = maxPoints then
      (some "FFD4EDDA", some { bold := true, size := 10, color := some "FF155724" })
    else if q = 0 then
      (some "FFF8D7DA", some { bold := true, size := 10, color := some "FF721C24" })
    else
      (some "FFFFF3CD", some { bold := true, size := 10, color := some "FF856404" })
  | .str _ => (none, none)

def analysisDetailRowCells (maps : EvalMaps) (rowNum idx : ℕ)
    (bn : String) (t : EvaluationTopic) : List Cell :=
  let result := getTopicValueWithReason maps bn t.topic t
  let col6style : Option String × Option FontSpec :=
    if result.shouldHighlight then highlightStyling t.points result.value
    else if result.value = .str "n/a" then
      (some "FFE0E0E0", some { size := 9, color := some "FF666666" })
    else (none, none)
  [ { row := rowNum, col := 1, value := .num (idx : ℚ) },
    { row := rowNum, col := 2, value := .str bn, font := some { size := 9 } },
    { row := rowNum, col := 3, value := .str (jsOrStr t.criticality "-"),
      fill := if t.criticality = "Crítico" then some "FFFECACA" else none,
      font := if t.criticality = "Crítico" then
        some { bold := true, size := 9, color := some "FFDC2626" } else none },
    { row := rowNum, col := 4, value := .str t.topic, font := some { size := 9 } },
    { row := rowNum, col := 5, value := pointsToCell t.points },
    { row := rowNum, col := 6, value := result.value,
      fill := col6style.1, font := col6style.2 },
    { row := rowNum, col := 7, value := .str (if t.applies then "Sí" else "No") },
    { row := rowNum, col := 8, value := .str result.reason, font := some { size := 9 } } ]

def analysisMatrixCell (maps : EvalMaps) (col : ℕ) (bn : String)
    (t : EvaluationTopic) : Cell :=
  let result := getTopicValueWithReason maps bn t.topic t
  if result.shouldHighlight then
    { row := 5, col := col, value := result.value, fill := some "FF000000",
      font := some { size := 10, bold := true, color := some "FFFFFFFF" },
      note := [{ size := 10, text := result.reason }] }
  else if result.value = .str "n/a" then
    { row := 5, col := col, value := result.value, fill := some "FFE0E0E0",
      font := some { size := 10, color := some "FF666666" } }
  else
    { row := 5, col := col, value := result.value, fill := some "FFF2F2F2",
      font := some { size := 9, italic := true, color := some "FF666666" },
      note := [{ size := 10, text := result.reason }] }

/-- The per-topic detail rows (columns 1-8), one row per catalog topic from
row 5, with the running `topicIndex` starting at 1. -/
def analysisDetailCells (maps : EvalMaps) :
    List (String × EvaluationTopic) → ℕ → ℕ → List Cell
  | [], _, _ => []
  | p :: rest, rowNum, idx =>
    analysisDetailRowCells maps rowNum idx p.1 p.2 ++
      analysisDetailCells maps rest (rowNum + 1) (idx + 1)

/-- The matrix score cells of row 5, one column per catalog topic from
column 9. -/
def analysisMatrixCells (maps : EvalMaps) :
    List (String × EvaluationTopic) → ℕ → List Cell
  | [], _ => []
  | p :: rest, col =>
    analysisMatrixCell maps col p.1 p.2 :: analysisMatrixCells maps rest (col + 1)

def createAnalysisSheet (auditInput : AuditInput) (evaluation : EvaluationResult) :
    Sheet :=
  let criteria := getCriteriaForCallType auditInput.callType
  let maps := buildEvalMaps evaluation.detailedScores
  let fl := flattenTopics criteria
  { sheetName := "Analisis",
    cells := analysisHeaderCells auditInput evaluation
      ++ analysisRow4Cells criteria
      ++ analysisDetailCells maps fl 5 1
      ++ analysisMatrixCells maps fl 9
      ++ [{ row := 5, col := 40, value := .str (analysisObservationsText evaluation),
            font := some { size := 9 } }],
    merges := ["A1:H1", "B2:C2", "G2:H2", "G3:H3"] }

/-! ## Monitoreo sheet (vertical variant) -/

def monitoreoHeaderFont : FontSpec := { bold := true, size := 11, color := some "FFFFFFFF" }

/-- The conditional fill/font of the Monitoreo D (Ponderación/score) cell:
critical topics show Cumple/No Cumple colors, non-applicable topics the gray
`n/a` style, numeric scores the full/zero/partial palette, and `Sin evaluar`
the neutral italic style. -/
def monitoreoDCellStyle (t : EvaluationTopic) (result : TopicResultInfo) :
    Option String × Option FontSpec :=
  if t.criticality = "Crítico" then
    if result.value = .str "No Cumple" then
      (some "FFFF0000", some { size := 10, bold := true, color := some "FFFFFFFF" })
    else if result.value = .str "Cumple" then
      (some "FF10B981", some { size := 10, bold := true, color := some "FFFFFFFF" })
    else if result.value = .str "Sin evaluar" then
      (some "FFF2F2F2", some { size := 9, italic := true, color := some "FF666666" })
    else (none, some { size := 10, bold := true })
  else if !t.applies then
    (some "FFE0E0E0", some { size := 10, color := some "FF666666" })
  else
    match result.value with
    | .num _ => highlightStyling t.points result.value
    | .str s =>
      if s = "Sin evaluar" then
        (some "FFF2F2F2", some { size := 9, italic := true, color := some "FF666666" })
      else (none, none)

/-- The annotation attached to the Monitoreo D cell: a bold run naming the
topic's weighting and a run carrying the reconciliation reason, suppressed
when the reason is empty or the literal `No aplica`. -/
def monitoreoDCellNote (t : EvaluationTopic) (result : TopicResultInfo) :
    List NoteRun :=
  if result.reason ≠ "" ∧ result.reason ≠ "No aplica" then
    [ { bold := true, size := 10,
        text := "Ponderación: " ++
          (if t.criticality = "Crítico" then "Crítico" else pointsText t.points) ++
          (match t.points with
            | .num n => "/" ++ displayNum (n : ℚ)
            | .na => "") ++ "\n" },
      { size := 10, text := result.reason } ]
  else []

def monitoreoTopicRowCells (maps : EvalMaps) (row topicIdx : ℕ)
    (bn : String) (t : EvaluationTopic) : List Cell :=
  let result := getTopicResult maps bn t.topic t
  (if topicIdx = 0 then
    [{ row := row, col := 2, value := .str bn,
       font := some monitoreoHeaderFont, fill := some "FFB42648" }]
  else []) ++
  [ { row := row, col := 3, value := .str t.topic, font := some { size := 10 } },
    { row := row, col := 4, value := result.value,
      fill := (monitoreoDCellStyle t result).1,
      font := (monitoreoDCellStyle t result).2,
      note := monitoreoDCellNote t result } ]

/-- The per-topic rows of one Monitoreo block, starting at `row`, with the
per-block `topicIdx` counter starting at `j`. -/
def monitoreoTopicsCells (maps : EvalMaps) (bn : String) :
    List EvaluationTopic → ℕ → ℕ → List Cell
  | [], _, _ => []
  | t :: ts, row, j =>
    monitoreoTopicRowCells maps row j bn t ++
      monitoreoTopicsCells maps bn ts (row + 1) (j + 1)

def monitoreoBlocksCells (maps : EvalMaps) :
    List EvaluationBlock → ℕ → List Cell × List String × ℕ
  | [], row => ([], [], row)
  | b :: bs, row =>
    let cells := monitoreoTopicsCells maps b.blockName b.topics row 0
    let merges : List String :=
      if b.topics.length > 1 then
        ["B" ++ toString row ++ ":B" ++ toString (row + b.topics.length - 1)]
      else []
    let rest := monitoreoBlocksCells maps bs (row + b.topics.length)
    (cells ++ rest.1, merges ++ rest.2.1, rest.2.2)

def createMonitoreoSheet (auditInput : AuditInput) (evaluation : EvaluationResult) :
    Sheet :=
  let criteria := getCriteriaForCallType auditInput.callType
  let maps := buildEvalMaps evaluation.detailedScores
  let data := monitoreoBlocksCells maps criteria 4
  let totalRow := data.2.2
  let obsRow := totalRow + 2
  { sheetName := "Monitoreo",
    cells := [
      { row := 2, col := 2, value := .str "Monitoreo",
        font := some monitoreoHeaderFont, fill := some "FFB42648" },
      { row := 2, col := 3, value := .str auditInput.executiveName,
        font := some monitoreoHeaderFont, fill := some "FFB42648" },
      { row := 2, col := 4, value := .str (jsOrStr auditInput.clientId auditInput.executiveId),
        font := some monitoreoHeaderFont, fill := some "FFB42648" },
      { row := 3, col := 2, value := .str "Bloques",
        font := some monitoreoHeaderFont, fill := some "FFB42648" },
      { row := 3, col := 3, value := .str "Rubros",
        font := some monitoreoHeaderFont, fill := some "FFB42648" },
      { row := 3, col := 4, value := .str "Ponderación",
        font := some monitoreoHeaderFont, fill := some "FFB42648" } ]
      ++ data.1
      ++ [
      { row := totalRow, col := 3, value := .str "Total",
        font := some { bold := true, size := 12, color := some "FFFFFFFF" },
        fill := some "FFB42648" },
      { row := totalRow, col := 4,
        value := .str (displayNum evaluation.totalScore ++ " / " ++
          displayNum evaluation.maxPossibleScore),
        font := some { bold := true, size := 12, color := some "FFFFFFFF" },
        fill := some "FFB42648" },
      { row := obsRow, col := 2, value := .str "Observaciones",
        font := some monitoreoHeaderFont, fill := some "FFB42648" },
      { row := obsRow, col := 3, value := .str (monitoreoObservationsText evaluation),
        font := some { size := 10 } } ],
    merges := data.2.1 ++ [
      "C" ++ toString totalRow ++ ":C" ++ toString (totalRow + 1),
      "D" ++ toString totalRow ++ ":D" ++ toString (totalRow + 1),
      "B" ++ toString obsRow ++ ":B" ++ toString (obsRow + 2),
      "C" ++ toString obsRow ++ ":D" ++ toString (obsRow + 2)] }

/-! ## `generateExcelReport` -/

/-- `\w`, `-` and `.`: the characters kept by `sanitizeFilename`. -/
def keepFilenameChar (c : Char) : Bool :=
  (97 ≤ c.toNat && c.toNat ≤ 122) || (65 ≤ c.toNat && c.toNat ≤ 90) ||
  (48 ≤ c.toNat && c.toNat ≤ 57) || c = '_' || c = '-' || c = '.'

/-- `ExcelService.sanitizeFilename`: whitespace runs become `_`, characters
outside `[\w\-_.]` are removed, the result is truncated to 100 characters.
(The second `replace(/\t/g, '_')` of the source is a no-op after the first
replace and is not repeated here.) -/
def sanitizeFilename (text : String) : String :=
  ⟨(((collapseWsAux false text.data).map fun c => if c = ' ' then '_' else c).filter
      keepFilenameChar).take 100⟩

structure ExcelReport where
  filename : String
  workbook : Workbook
deriving DecidableEq

/-- `ExcelService.generateExcelReport`, current revision: builds the workbook
in memory and returns `{ filename, buffer }`.  The only reads of the ambient
clock are `workbook.created = new Date()` and the `Date.now()` embedded in
the filename, both passed here as the explicit `now` argument; the byte
serialization performed by the external `exceljs` writer is a function of
the workbook alone. -/
def generateExcelReport (auditInput : AuditInput) (evaluation : EvaluationResult)
    (now : ℕ) : ExcelReport :=
  let callTypeUpper := jsTrim (jsToUpper auditInput.callType)
  let sheet :=
    if jsIncludes callTypeUpper "MONITOREO" then
      createMonitoreoSheet auditInput evaluation
    else
      createAnalysisSheet auditInput evaluation
  { filename := "auditoria_" ++ sanitizeFilename auditInput.executiveId ++ "_" ++
      toString now ++ ".xlsx",
    workbook := { creator := "Audit AI System", created := now, sheetList := [sheet] } }

/-! ## Specification-side enumeration helper and sample inputs -/

/-- Specification-side description of a rendered topic region: one entry per
catalog topic, at consecutive positions starting at `pos`. -/
def rowIndexedSpec (f : String × EvaluationTopic → CellValue) (pos : ℕ) :
    List (String × EvaluationTopic) → List (ℕ × CellValue)
  | [] => []
  | p :: ps => (pos, f p) :: rowIndexedSpec f (pos + 1) ps

def monitoreoAuditInput : AuditInput :=
  { executiveName := "Ana Gomez", executiveId := "E123", callType := "MONITOREO",
    clientId := "C900", callDate := "2026-01-15" }

def emptyEvaluation : EvaluationResult :=
  { totalScore := 0, maxPossibleScore := 105, percentage := 0, detailedScores := [],
    observations := "", recommendations := [], keyMoments := [] }

def accentScore : DetailedScore :=
  { criterion := "[Front] Codificacion correcta del caso", score := 5, maxScore := 5,
    observations := "Caso codificado correctamente" }

def accentTopic : EvaluationTopic :=
  { topic := "Codificación correcta del caso", criticality := "Crítico",
    points := .num 5, applies := true }

def unrelatedScore : DetailedScore :=
  { criterion := "[Foo] Bar", score := 3, maxScore := 5, observations := "x" }

def falconScore : DetailedScore :=
  { criterion := "[Falcon] Califica transacciones, Cierre de caso, Selecciona casillas de acción",
    score := 20, maxScore := 20, observations := "Todo correcto" }

def falconTopic : EvaluationTopic :=
  { topic := "Califica transacciones, Cierre de caso, Selecciona casillas de acción",
    criticality := "-", points := .num 20, applies := true }

def criticoScore : DetailedScore :=
  { criterion := "[Casos críticos] Calificación de caso (cierre de caso en falcon)",
    score := 0, maxScore := 0, observations := "Se saltó el cierre de caso" }

def criticoTopic : EvaluationTopic :=
  { topic := "Calificación de caso (cierre de caso en falcon)",
    criticality := "Crítico", points := .na, applies := true }

def naScore : DetailedScore :=
  { criterion := "[Falcon] Califica transacciones, Cierre de caso, Selecciona casillas de acción",
    score := 20, maxScore := 20, observations := "No aplica" }

def naEvaluation : EvaluationResult :=
  { totalScore := 20, maxPossibleScore := 105, percentage := 19,
    detailedScores := [naScore], observations := "", recommendations := [],
    keyMoments := [] }

/-! ## Content-addressable cache (`cache.service.ts`).  File contents are an
environment `content : String → List ℕ` (the bytes `fs.readFileSync`
returns); the SHA-256 digest of `crypto.createHash('sha256')` is an abstract
`hash : List ℕ → String`, since the hash itself lives in Node's crypto
library, not in this repository.  Successive `update` calls digest the
concatenation of the pieces' bytes, so the combined digest is `hash` of the
flattened byte lists; hex digests are ASCII, where `Char.toNat` agrees with
UTF-8. -/

def strBytes (s : String) : List ℕ := s.data.map Char.toNat

/-- Lexicographic comparison of code-point sequences: the order of the
comparator-less JavaScript `Array.prototype.sort()` on (BMP) strings. -/
def lexLeNat : List ℕ → List ℕ → Bool
  | [], _ => true
  | _ :: _, [] => false
  | a :: as, b :: bs => if a < b then true else if b < a then false else lexLeNat as bs

def strCodeLe (a b : String) : Bool := lexLeNat (strBytes a) (strBytes b)

def strRel (a b : String) : Prop := strCodeLe a b = true

instance : DecidableRel strRel := fun a b =>
  inferInstanceAs (Decidable (strCodeLe a b = true))

/-- `CacheService.generateCacheKey`: hash the audio content, hash each image
content, sort the image hashes, and hash the digest of audio hash followed
by the sorted image hashes. -/
def generateCacheKey (hash : List ℕ → String) (content : String → List ℕ)
    (audioPath : String) (imagePaths : List String) : String :=
  let audioHash := hash (content audioPath)
  let imageHashes :=
    List.insertionSort strRel (imagePaths.map fun p => hash (content p))
  hash ((audioHash :: imageHashes).flatMap strBytes)

def constHash64 : List ℕ → String := fun _ => ⟨List.replicate 64 'h'⟩

def digitHash : List ℕ → String :=
  fun bytes => ⟨bytes.map fun b => Char.ofNat (48 + b % 10)⟩

def contentA : String → List ℕ :=
  fun p => if p = "audio.mp3" then [1, 2] else if p = "img1.png" then [3] else [4]

def contentB : String → List ℕ :=
  fun p => if p = "audio.mp3" then [9] else if p = "img1.png" then [3] else [4]

/-! ## C5: `CacheService.get` / `CacheService.set` (evaluation-criteria.ts
lines 781-881).  The filesystem and clock are explicit parameters:
`excelExists f` models `fs.existsSync(path.join(resultsDir, f))` for the
fixed results directory, `now` models `Date.now()` in milliseconds, and
`maxAgeHours` models `parseInt(process.env.CACHE_MAX_AGE_HOURS || '168')`.
The `result` field stores `Omit<EvaluationResult, 'excelUrl'>`; our
`EvaluationResult` record already omits the optional `excelUrl`. -/

structure CacheEntry where
  cacheKey : String
  timestamp : ℤ
  result : EvaluationResult
  excelFilename : String
  audioHash : String
  imageHashes : List String
  executiveId : String
  callType : String
deriving DecidableEq

/-- JS `Map.delete`: remove the entry with the given key. -/
def jsMapDelete {α : Type} (m : List (String × α)) (k : String) :
    List (String × α) :=
  m.filter fun e => e.1 ≠ k

def defaultMaxAgeHours : ℕ := 168

/-- `(Date.now() - entry.timestamp) / (1000 * 60 * 60)`, exactly in ℚ. -/
def ageInHours (now timestamp : ℤ) : ℚ :=
  ((now - timestamp : ℤ) : ℚ) / (1000 * 60 * 60)

/-- Body of `CacheService.get` once the cache key has been computed. -/
def cacheGetEntry (excelExists : String → Bool) (now : ℤ) (maxAgeHours : ℕ)
    (index : List (String × CacheEntry)) (cacheKey : String) :
    Option (EvaluationResult × String) × List (String × CacheEntry) :=
  match jsMapGet index cacheKey with
  | none => (none, index)
  | some entry =>
    if excelExists entry.excelFilename = false then
      (none, jsMapDelete index cacheKey)
    else if ageInHours now entry.timestamp > (maxAgeHours : ℚ) then
      (none, jsMapDelete index cacheKey)
    else
      (some (entry.result, entry.excelFilename), index)

/-- `CacheService.get`: returns the hit (if any) and the updated index. -/
def cacheGet (hash : List ℕ → String) (content : String → List ℕ)
    (excelExists : String → Bool) (now : ℤ) (maxAgeHours : ℕ)
    (index : List (String × CacheEntry))
    (audioPath : String) (imagePaths : List String) :
    Option (EvaluationResult × String) × List (String × CacheEntry) :=
  cacheGetEntry excelExists now maxAgeHours index
    (generateCacheKey hash content audioPath imagePaths)

/-- `CacheService.set`: store the entry under the computed key. -/
def cacheSet (hash : List ℕ → String) (content : String → List ℕ)
    (now : ℤ) (index : List (String × CacheEntry))
    (audioPath : String) (imagePaths : List String)
    (result : EvaluationResult)
    (excelFilename executiveId callType : String) :
    List (String × CacheEntry) :=
  jsMapSet index (generateCacheKey hash content audioPath imagePaths)
    { cacheKey := generateCacheKey hash content audioPath imagePaths
      timestamp := now
      result := result
      excelFilename := excelFilename
      audioHash := hash (content audioPath)
      imageHashes := imagePaths.map fun p => hash (content p)
      executiveId := executiveId
      callType := callType }

def staleEntry : CacheEntry :=
  { cacheKey := generateCacheKey digitHash contentA "audio.mp3" []
    timestamp := 0
    result := emptyEvaluation
    excelFilename := "old.xlsx"
    audioHash := digitHash (contentA "audio.mp3")
    imageHashes := []
    executiveId := "E1"
    callType := "FRAUDE" }

def staleIndex : List (String × CacheEntry) :=
  [(generateCacheKey digitHash contentA "audio.mp3" [], staleEntry)]

/-! ## C6: `EvaluatorService.extractVisualEvidenceEnhanced`
(evaluation-criteria.ts lines 1177-1275).  Each OpenAI call plus the
response cleanup and `JSON.parse` is abstracted into an oracle
`respond imagePath attempt`: `failure` covers a thrown error, empty
content, or unparseable JSON; `parsed system data` covers a parse that
succeeded, where `system` is `parsed.system` (`none` = absent, `""` =
falsy empty string) and `data` abstracts the `parsed.data` payload
(`none` = absent; a present JSON object is always truthy).  The auxiliary
fields pushed with the record (`findings`, `confidence`,
`critical_fields`) are components of the same parsed payload and are
folded into `data`.  The 1000 ms sleep between failed attempts is a
timing effect with no influence on the returned value. -/

inductive AttemptOutcome where
  | failure : AttemptOutcome
  | parsed : Option String → Option String → AttemptOutcome
deriving DecidableEq

/-- One loop iteration after `attempts++`: `none` exactly when the body
throws (parse failure, or `!parsed.system || !parsed.data`). -/
def attemptResult : AttemptOutcome → Option (String × String)
  | .failure => none
  | .parsed system data =>
    match system, data with
    | some s, some d => if s = "" then none else some (s, d)
    | some _, none => none
    | none, _ => none

def maxAttempts : ℕ := 3

/-- `while (attempts < maxAttempts && !success)`, with `remaining =
maxAttempts - attempts` as the structural measure. -/
def runAttempts (respond : ℕ → AttemptOutcome) :
    ℕ → ℕ → Option (String × String)
  | _, 0 => none
  | attempts, remaining + 1 =>
    match attemptResult (respond (attempts + 1)) with
    | some r => some r
    | none => runAttempts respond (attempts + 1) remaining

def processImage (respond : ℕ → AttemptOutcome) : Option (String × String) :=
  runAttempts respond 0 maxAttempts

structure VisualRecord where
  imagePath : String
  data : String
deriving DecidableEq

/-- `Record<string, any[]>` with `evidence[system].push(...)`: append under
an existing key, or create the key with a one-element array. -/
def jsMapPush {α : Type} (m : List (String × List α)) (k : String) (v : α) :
    List (String × List α) :=
  if m.any (fun e => e.1 = k) then
    m.map (fun e => if e.1 = k then (e.1, e.2 ++ [v]) else e)
  else m ++ [(k, [v])]

/-- One iteration of the `for` loop over `imagePaths`. -/
def evidenceStep (respond : String → ℕ → AttemptOutcome)
    (evidence : List (String × List VisualRecord)) (imagePath : String) :
    List (String × List VisualRecord) :=
  match processImage (respond imagePath) with
  | none => evidence
  | some (system, data) =>
    jsMapPush evidence system { imagePath := imagePath, data := data }

def extractVisualEvidenceEnhanced (respond : String → ℕ → AttemptOutcome)
    (imagePaths : List String) : List (String × List VisualRecord) :=
  imagePaths.foldl (evidenceStep respond) []

def respondGood : String → ℕ → AttemptOutcome :=
  fun p i =>
    if p = "bad.png" then AttemptOutcome.failure
    else if i = 1 then AttemptOutcome.failure
    else AttemptOutcome.parsed (some "FALCON") (some "caso 123")

/-! ## Theorems -/

/-! ## Character-level lemmas for the JS primitives -/

theorem charToNat_ofNat {n : ℕ} (h : n.isValidChar) : (Char.ofNat n).toNat = n := by
  unfold Char.ofNat
  rw [dif_pos h]
  unfold Char.ofNatAux Char.toNat
  simp [UInt32.ofNat', UInt32.toNat, BitVec.toNat_ofNatLt]

theorem lowerCode_isValidChar (c : Char) : (lowerCode c.toNat).isValidChar := by
  have hv : c.toNat.isValidChar := c.valid
  unfold lowerCode
  split_ifs
  · exact Or.inl (by omega)
  · exact Or.inl (by omega)
  · exact hv

theorem upperCode_isValidChar (c : Char) : (upperCode c.toNat).isValidChar := by
  have hv : c.toNat.isValidChar := c.valid
  unfold upperCode
  split_ifs
  · exact Or.inl (by omega)
  · exact Or.inl (by omega)
  · exact hv

theorem upperCode_lowerCode (n : ℕ) : upperCode (lowerCode n) = upperCode n := by
  unfold lowerCode upperCode
  split_ifs <;> omega

theorem jsToUpperChar_jsToLowerChar (c : Char) :
    jsToUpperChar (jsToLowerChar c) = jsToUpperChar c := by
  unfold jsToUpperChar jsToLowerChar
  rw [charToNat_ofNat (lowerCode_isValidChar c), upperCode_lowerCode]

theorem jsToUpper_jsToLower (s : String) : jsToUpper (jsToLower s) = jsToUpper s := by
  unfold jsToUpper jsToLower
  cases s with
  | mk data => simp [List.map_map, Function.comp_def, jsToUpperChar_jsToLowerChar]

theorem isJsWhitespace_jsToUpperChar (c : Char) :
    isJsWhitespace (jsToUpperChar c) = isJsWhitespace c := by
  unfold isJsWhitespace jsToUpperChar
  rw [charToNat_ofNat (upperCode_isValidChar c)]
  unfold upperCode
  split_ifs with h1 h2
  · rw [Bool.eq_iff_iff]
    simp only [Bool.or_eq_true, decide_eq_true_eq]
    omega
  · rw [Bool.eq_iff_iff]
    simp only [Bool.or_eq_true, decide_eq_true_eq]
    omega
  · rfl

theorem dropWhile_ws_append (w x : List Char) (hw : ∀ c ∈ w, isJsWhitespace c) :
    (w ++ x).dropWhile isJsWhitespace = x.dropWhile isJsWhitespace := by
  induction w with
  | nil => rfl
  | cons c cs ih =>
    have hc : isJsWhitespace c := hw c (List.mem_cons_self c cs)
    simp only [List.cons_append, List.dropWhile_cons, hc, if_true]
    exact ih (fun d hd => hw d (List.mem_cons_of_mem c hd))

theorem jsTrimList_ws_pad (w1 x w2 : List Char)
    (h1 : ∀ c ∈ w1, isJsWhitespace c) (h2 : ∀ c ∈ w2, isJsWhitespace c) :
    jsTrimList (w1 ++ x ++ w2) = jsTrimList x := by
  unfold jsTrimList
  rw [List.append_assoc, dropWhile_ws_append w1 (x ++ w2) h1]
  rw [List.dropWhile_append]
  by_cases hx : (x.dropWhile isJsWhitespace).isEmpty
  · rw [if_pos hx]
    have hw2 : w2.dropWhile isJsWhitespace = [] := by
      induction w2 with
      | nil => rfl
      | cons c cs ih =>
        have hc : isJsWhitespace c := h2 c (List.mem_cons_self c cs)
        simp only [List.dropWhile_cons, hc, if_true]
        exact ih (fun d hd => h2 d (List.mem_cons_of_mem c hd))
    rw [hw2]
    rw [List.isEmpty_iff] at hx
    rw [hx]
  · rw [if_neg hx]
    rw [List.reverse_append]
    rw [dropWhile_ws_append w2.reverse (x.dropWhile isJsWhitespace).reverse
      (fun c hc => h2 c (List.mem_reverse.mp hc))]

/-- C1: against the MONITOREO catalog the computed denominator is not the
numeric sum of the applicable topics' points.  The three `Casos críticos`
topics have `applies = true` with `points = 'n/a'`, so the JavaScript reduce
`sum + t.maxScore` degenerates into string concatenation and produces the
string `"105n/an/an/a"` instead of a number.  For the FRAUD and TH CONFIRMA
catalogs, whose applicable topics all carry numeric points, the computed
value is the numeric sum exactly as the specification states. -/
theorem C1_maxPossibleScore_monitoreo_divergence :
    maxPossibleScore (getCriteriaForCallType "MONITOREO") = JSVal.str "105n/an/an/a" ∧
    (maxPossibleScore (getCriteriaForCallType "MONITOREO")).isNumber = false ∧
    specMaxPossibleScore MONITOREO_CRITERIA = 105 ∧
    maxPossibleScore (getCriteriaForCallType "FRAUDE") =
      JSVal.num (specMaxPossibleScore FRAUD_CRITERIA) ∧
    maxPossibleScore (getCriteriaForCallType "TH CONFIRMA") =
      JSVal.num (specMaxPossibleScore TH_CONFIRMA_CRITERIA) := by
  refine ⟨?_, ?_, ?_, ?_, ?_⟩ <;> decide

/-- C8: `getCriteriaForCallType` is total, matches the fixed keyword priority
list MONITOREO, FRAUDE, TH CONFIRMA / TH_CONFIRMA by substring containment on
the upper-cased, trimmed input, silently falls back to the fraud catalog, and
is insensitive to letter case and to surrounding whitespace. -/
theorem C8_getCriteriaForCallType_total_priority_default :
    (∀ s : String, getCriteriaForCallType s = MONITOREO_CRITERIA ∨
      getCriteriaForCallType s = FRAUD_CRITERIA ∨
      getCriteriaForCallType s = TH_CONFIRMA_CRITERIA) ∧
    (∀ s : String, jsIncludes (jsTrim (jsToUpper s)) "MONITOREO" = true →
      getCriteriaForCallType s = MONITOREO_CRITERIA) ∧
    (∀ s : String, jsIncludes (jsTrim (jsToUpper s)) "MONITOREO" = false →
      jsIncludes (jsTrim (jsToUpper s)) "FRAUDE" = true →
      getCriteriaForCallType s = FRAUD_CRITERIA) ∧
    (∀ s : String, jsIncludes (jsTrim (jsToUpper s)) "MONITOREO" = false →
      jsIncludes (jsTrim (jsToUpper s)) "FRAUDE" = false →
      (jsIncludes (jsTrim (jsToUpper s)) "TH CONFIRMA" = true ∨
       jsIncludes (jsTrim (jsToUpper s)) "TH_CONFIRMA" = true) →
      getCriteriaForCallType s = TH_CONFIRMA_CRITERIA) ∧
    (∀ s : String, jsIncludes (jsTrim (jsToUpper s)) "MONITOREO" = false →
      jsIncludes (jsTrim (jsToUpper s)) "FRAUDE" = false →
      jsIncludes (jsTrim (jsToUpper s)) "TH CONFIRMA" = false →
      jsIncludes (jsTrim (jsToUpper s)) "TH_CONFIRMA" = false →
      getCriteriaForCallType s = FRAUD_CRITERIA) ∧
    (∀ s : String, getCriteriaForCallType (jsToLower s) = getCriteriaForCallType s) ∧
    (∀ (s w1 w2 : String), (∀ c ∈ w1.data, isJsWhitespace c = true) →
      (∀ c ∈ w2.data, isJsWhitespace c = true) →
      getCriteriaForCallType (w1 ++ s ++ w2) = getCriteriaForCallType s) := by
  refine ⟨?_, ?_, ?_, ?_, ?_, ?_, ?_⟩
  · intro s
    unfold getCriteriaForCallType
    dsimp only
    split_ifs <;> tauto
  · intro s h
    unfold getCriteriaForCallType
    dsimp only
    simp only [h, if_true]
  · intro s hm hf
    unfold getCriteriaForCallType
    dsimp only
    simp only [hm, hf, Bool.false_eq_true, if_false, if_true]
  · intro s hm hf hth
    unfold getCriteriaForCallType
    dsimp only
    have : (jsIncludes (jsTrim (jsToUpper s)) "TH CONFIRMA" ||
        jsIncludes (jsTrim (jsToUpper s)) "TH_CONFIRMA") = true := by
      rcases hth with h | h <;> simp [h]
    simp only [hm, hf, this, Bool.false_eq_true, if_false, if_true]
  · intro s hm hf h1 h2
    unfold getCriteriaForCallType
    dsimp only
    simp only [hm, hf, h1, h2, Bool.or_self, Bool.false_eq_true, if_false]
  · intro s
    unfold getCriteriaForCallType
    dsimp only
    rw [jsToUpper_jsToLower]
  · intro s w1 w2 h1 h2
    have hdata : (jsToUpper (w1 ++ s ++ w2)).data =
        w1.data.map jsToUpperChar ++ s.data.map jsToUpperChar ++ w2.data.map jsToUpperChar := by
      unfold jsToUpper
      simp [String.data_append]
    have htrim : jsTrim (jsToUpper (w1 ++ s ++ w2)) = jsTrim (jsToUpper s) := by
      unfold jsTrim
      rw [hdata]
      have hw1 : ∀ c ∈ w1.data.map jsToUpperChar, isJsWhitespace c = true := by
        intro c hc
        obtain ⟨d, hd, rfl⟩ := List.mem_map.mp hc
        rw [isJsWhitespace_jsToUpperChar]
        exact h1 d hd
      have hw2 : ∀ c ∈ w2.data.map jsToUpperChar, isJsWhitespace c = true := by
        intro c hc
        obtain ⟨d, hd, rfl⟩ := List.mem_map.mp hc
        rw [isJsWhitespace_jsToUpperChar]
        exact h2 d hd
      rw [jsTrimList_ws_pad _ _ _ hw1 hw2]
      rfl
    unfold getCriteriaForCallType
    dsimp only
    rw [htrim]

/-- Witness for C8: concrete catalog selections obtained from the theorem. -/
theorem C8_getCriteriaForCallType_witness :
    getCriteriaForCallType "Llamada Monitoreo" = MONITOREO_CRITERIA ∧
    getCriteriaForCallType "desconocido" = FRAUD_CRITERIA ∧
    getCriteriaForCallType " th_confirma " = TH_CONFIRMA_CRITERIA := by
  obtain ⟨-, h1, -, h3, h4, -, -⟩ := C8_getCriteriaForCallType_total_priority_default
  exact ⟨h1 _ (by decide), h4 _ (by decide) (by decide) (by decide) (by decide),
    h3 _ (by decide) (by decide) (Or.inr (by decide))⟩

theorem foldl_push_filter_map {α β : Type} (p : α → Bool) (f : α → β)
    (l : List α) (acc : List β) :
    l.foldl (fun e u => if p u then e ++ [f u] else e) acc =
      acc ++ (l.filter p).map f := by
  induction l generalizing acc with
  | nil => simp
  | cons a l ih =>
    by_cases h : p a <;>
      simp [List.foldl_cons, List.filter_cons, h, ih, List.append_assoc]

/-- C9: the verbal evidence extractor is the pure order-preserving filter
retaining exactly the utterances whose lower-cased text contains one of the
fixed keywords and whose length exceeds 15 characters; the retained
utterances form a subsequence of the transcript. -/
theorem C9_extractVerbalEvidence_pure_filter :
    (∀ tr : TranscriptResult,
      extractVerbalEvidence tr = (tr.utterances.filter verbalPred).map formatEvidenceLine) ∧
    (∀ u : Utterance, verbalPred u = true ↔
      ((∃ kw ∈ verbalKeywords, jsIncludes (jsToLower u.text) kw = true) ∧
        15 < u.text.length)) ∧
    (∀ tr : TranscriptResult, (tr.utterances.filter verbalPred).Sublist tr.utterances) ∧
    (∀ (tr : TranscriptResult) (u : Utterance),
      u ∈ tr.utterances.filter verbalPred ↔ u ∈ tr.utterances ∧ verbalPred u = true) := by
  refine ⟨?_, ?_, ?_, ?_⟩
  · intro tr
    unfold extractVerbalEvidence
    rw [foldl_push_filter_map]
    rfl
  · intro u
    unfold verbalPred
    simp [List.any_eq_true]
  · intro tr
    exact List.filter_sublist _
  · intro tr u
    exact List.mem_filter

/-- Witness for C9: a concrete utterance is retained and formatted, an
unrelated short one is dropped. -/
theorem C9_extractVerbalEvidence_witness :
    extractVerbalEvidence
      { text := "", utterances := [
          { speaker := "A", text := "Ya quedó bloqueada su tarjeta, señor", start := 65000 },
          { speaker := "B", text := "gracias", start := 70000 } ] } =
      ["[01:05] A: \"Ya quedó bloqueada su tarjeta, señor\""] := by
  rw [(C9_extractVerbalEvidence_pure_filter).1]
  decide

theorem lowerCode_lowerCode (n : ℕ) : lowerCode (lowerCode n) = lowerCode n := by
  unfold lowerCode
  split_ifs <;> omega

theorem jsToLowerChar_idem (c : Char) :
    jsToLowerChar (jsToLowerChar c) = jsToLowerChar c := by
  unfold jsToLowerChar
  rw [charToNat_ofNat (lowerCode_isValidChar c), lowerCode_lowerCode]

theorem nfdTable_facts : ∀ e ∈ nfdDecompositions, isCombiningMark e.2.2 = true ∧
    (jsToLowerChar e.1 = e.1 →
      jsToLowerChar e.2.1 = e.2.1 ∧ nfdChar e.2.1 = [e.2.1] ∧
        isCombiningMark e.2.1 = false) := by decide

theorem cleanCh_of_nfd (c : Char) (hc : jsToLowerChar c = c) (d : Char)
    (hd : d ∈ nfdChar c) (hm : isCombiningMark d = false) : CleanCh d := by
  unfold nfdChar at hd
  cases hfind : nfdDecompositions.find? (fun e => e.1 = c) with
  | none =>
    rw [hfind] at hd
    simp only [List.mem_singleton] at hd
    subst hd
    exact ⟨hc, by simp [nfdChar, hfind], hm⟩
  | some e =>
    rw [hfind] at hd
    have hmem := List.mem_of_find?_eq_some hfind
    have hecq : e.1 = c := by simpa using List.find?_some hfind
    obtain ⟨hmark, himp⟩ := nfdTable_facts e hmem
    simp only [List.mem_cons, List.not_mem_nil, or_false] at hd
    rcases hd with rfl | rfl
    · exact himp (by rw [hecq]; exact hc)
    · rw [hmark] at hm
      exact absurd hm (by simp)

theorem cleanCh_space : CleanCh ' ' := by
  refine ⟨by decide, by decide, by decide⟩

theorem map_lower_of_clean {l : List Char} (h : ∀ c ∈ l, CleanCh c) :
    l.map jsToLowerChar = l := by
  induction l with
  | nil => rfl
  | cons c cs ih =>
    rw [List.map_cons, (h c (List.mem_cons_self c cs)).1,
      ih fun d hd => h d (List.mem_cons_of_mem c hd)]

theorem flatMap_nfd_of_clean {l : List Char} (h : ∀ c ∈ l, CleanCh c) :
    l.flatMap nfdChar = l := by
  induction l with
  | nil => rfl
  | cons c cs ih =>
    rw [List.flatMap_cons, (h c (List.mem_cons_self c cs)).2.1,
      ih fun d hd => h d (List.mem_cons_of_mem c hd)]
    rfl

theorem filter_mark_of_clean {l : List Char} (h : ∀ c ∈ l, CleanCh c) :
    l.filter (fun c => !isCombiningMark c) = l := by
  induction l with
  | nil => rfl
  | cons c cs ih =>
    rw [List.filter_cons, if_pos (by rw [(h c (List.mem_cons_self c cs)).2.2]; rfl),
      ih fun d hd => h d (List.mem_cons_of_mem c hd)]

theorem collapse_ws_space : ∀ (b : Bool) (l : List Char) (c : Char),
    c ∈ collapseWsAux b l → isJsWhitespace c = true → c = ' ' := by
  intro b l
  induction l generalizing b with
  | nil => intro c hc; cases hc
  | cons a as ih =>
    intro c hc hw
    unfold collapseWsAux at hc
    by_cases ha : isJsWhitespace a
    · rw [if_pos ha] at hc
      cases b with
      | true => exact ih true c (by simpa using hc) hw
      | false =>
        rw [if_neg Bool.false_ne_true] at hc
        rcases List.mem_cons.mp hc with rfl | hc
        · rfl
        · exact ih true c hc hw
    · rw [if_neg ha] at hc
      rcases List.mem_cons.mp hc with rfl | hc
      · exact absurd hw (by simp [ha])
      · exact ih false c hc hw

theorem collapse_subset : ∀ (b : Bool) (l : List Char) (c : Char),
    c ∈ collapseWsAux b l → c ∈ l ∨ c = ' ' := by
  intro b l
  induction l generalizing b with
  | nil => intro c hc; cases hc
  | cons a as ih =>
    intro c hc
    unfold collapseWsAux at hc
    by_cases ha : isJsWhitespace a
    · rw [if_pos ha] at hc
      cases b with
      | true =>
        rcases ih true c (by simpa using hc) with h | h
        · exact Or.inl (List.mem_cons_of_mem a h)
        · exact Or.inr h
      | false =>
        rw [if_neg Bool.false_ne_true] at hc
        rcases List.mem_cons.mp hc with rfl | hc
        · exact Or.inr rfl
        · rcases ih true c hc with h | h
          · exact Or.inl (List.mem_cons_of_mem a h)
          · exact Or.inr h
    · rw [if_neg ha] at hc
      rcases List.mem_cons.mp hc with rfl | hc
      · exact Or.inl (List.mem_cons_self _ _)
      · rcases ih false c hc with h | h
        · exact Or.inl (List.mem_cons_of_mem a h)
        · exact Or.inr h

theorem collapse_true_head : ∀ (l : List Char) (c : Char),
    (collapseWsAux true l).head? = some c → isJsWhitespace c = false := by
  intro l
  induction l with
  | nil => intro c hc; cases hc
  | cons a as ih =>
    intro c hc
    unfold collapseWsAux at hc
    by_cases ha : isJsWhitespace a
    · rw [if_pos ha, if_pos rfl] at hc
      exact ih c hc
    · rw [if_neg ha] at hc
      simp only [List.head?_cons, Option.some.injEq] at hc
      subst hc
      simpa using ha

theorem collapse_chain : ∀ (b : Bool) (l : List Char),
    List.Chain' noDoubleWs (collapseWsAux b l) := by
  intro b l
  induction l generalizing b with
  | nil => simp [collapseWsAux]
  | cons a as ih =>
    unfold collapseWsAux
    by_cases ha : isJsWhitespace a
    · rw [if_pos ha]
      cases b with
      | true => simpa using ih true
      | false =>
        rw [if_neg Bool.false_ne_true]
        refine List.chain'_cons'.mpr ⟨?_, ih true⟩
        intro y hy
        intro hpair
        have := collapse_true_head as y hy
        rw [this] at hpair
        exact absurd hpair.2 (by simp)
    · rw [if_neg ha]
      refine List.chain'_cons'.mpr ⟨?_, ih false⟩
      intro y hy
      exact fun hpair => ha hpair.1

theorem collapse_id (l : List Char)
    (hws : ∀ c ∈ l, isJsWhitespace c = true → c = ' ')
    (hch : List.Chain' noDoubleWs l) :
    collapseWsAux false l = l ∧
      ((∀ c, l.head? = some c → isJsWhitespace c = false) →
        collapseWsAux true l = l) := by
  induction l with
  | nil => exact ⟨rfl, fun _ => rfl⟩
  | cons a as ih =>
    have hws' : ∀ c ∈ as, isJsWhitespace c = true → c = ' ' :=
      fun c hc => hws c (List.mem_cons_of_mem a hc)
    obtain ⟨hhead, hch'⟩ := List.chain'_cons'.mp hch
    obtain ⟨ihf, iht⟩ := ih hws' hch'
    by_cases ha : isJsWhitespace a
    · have ha' : a = ' ' := hws a (List.mem_cons_self a as) ha
      have htail : collapseWsAux true as = as := by
        apply iht
        intro c hc
        by_contra hwc
        exact hhead c (Option.mem_def.mpr hc) ⟨ha, by simpa using hwc⟩
      constructor
      · show collapseWsAux false (a :: as) = a :: as
        unfold collapseWsAux
        rw [if_pos ha, if_neg Bool.false_ne_true, htail, ha']
      · intro h
        exact absurd (h a rfl) (by simp [ha])
    · have hstep : ∀ b : Bool, collapseWsAux b (a :: as) = a :: collapseWsAux false as := by
        intro b
        conv_lhs => unfold collapseWsAux
        rw [if_neg ha]
      exact ⟨by rw [hstep, ihf], fun _ => by rw [hstep, ihf]⟩

theorem dropWhile_head_not (p : Char → Bool) (l : List Char) (c : Char)
    (h : (l.dropWhile p).head? = some c) : p c = false := by
  induction l with
  | nil => cases h
  | cons a as ih =>
    rw [List.dropWhile_cons] at h
    by_cases ha : p a
    · rw [if_pos ha] at h
      exact ih h
    · rw [if_neg ha] at h
      simp only [List.head?_cons, Option.some.injEq] at h
      subst h
      simpa using ha

theorem dropWhile_id_of_head (p : Char → Bool) (l : List Char)
    (h : ∀ c, l.head? = some c → p c = false) : l.dropWhile p = l := by
  cases l with
  | nil => rfl
  | cons a as =>
    have ha : p a = false := h a rfl
    rw [List.dropWhile_cons, ha]
    simp

theorem getLast?_dropWhile (p : Char → Bool) (l : List Char)
    (h : l.dropWhile p ≠ []) : (l.dropWhile p).getLast? = l.getLast? := by
  obtain ⟨t, ht⟩ := List.dropWhile_suffix (l := l) p
  conv_rhs => rw [← ht]
  rw [List.getLast?_append_of_ne_nil _ h]

theorem jsTrimList_head_not_ws (l : List Char) (c : Char)
    (h : (jsTrimList l).head? = some c) : isJsWhitespace c = false := by
  unfold jsTrimList at h
  rw [List.head?_reverse] at h
  have hne : (List.reverse (l.dropWhile isJsWhitespace)).dropWhile isJsWhitespace ≠ [] := by
    intro hnil
    rw [hnil] at h
    cases h
  rw [getLast?_dropWhile _ _ hne, List.getLast?_reverse] at h
  exact dropWhile_head_not _ _ _ h

theorem jsTrimList_last_not_ws (l : List Char) (c : Char)
    (h : (jsTrimList l).getLast? = some c) : isJsWhitespace c = false := by
  unfold jsTrimList at h
  rw [List.getLast?_reverse] at h
  exact dropWhile_head_not _ _ _ h

theorem jsTrimList_id (l : List Char)
    (hh : ∀ c, l.head? = some c → isJsWhitespace c = false)
    (hl : ∀ c, l.getLast? = some c → isJsWhitespace c = false) :
    jsTrimList l = l := by
  unfold jsTrimList
  rw [dropWhile_id_of_head _ _ hh]
  rw [dropWhile_id_of_head _ _ (by intro c hc; rw [List.head?_reverse] at hc; exact hl c hc)]
  exact List.reverse_reverse l

theorem jsTrimList_subset (l : List Char) (c : Char) (hc : c ∈ jsTrimList l) : c ∈ l := by
  unfold jsTrimList at hc
  rw [List.mem_reverse] at hc
  have h1 := (List.dropWhile_suffix (l := (l.dropWhile isJsWhitespace).reverse)
    isJsWhitespace).sublist.subset hc
  rw [List.mem_reverse] at h1
  exact (List.dropWhile_suffix (l := l) isJsWhitespace).sublist.subset h1

theorem chain'_reverse_noDoubleWs {l : List Char} (h : List.Chain' noDoubleWs l) :
    List.Chain' noDoubleWs l.reverse := by
  rw [List.chain'_reverse]
  exact h.imp fun a b hab => fun ⟨h1, h2⟩ => hab ⟨h2, h1⟩

theorem chain'_jsTrimList {l : List Char} (h : List.Chain' noDoubleWs l) :
    List.Chain' noDoubleWs (jsTrimList l) := by
  unfold jsTrimList
  exact chain'_reverse_noDoubleWs
    (((chain'_reverse_noDoubleWs
      (h.suffix (List.dropWhile_suffix _))).suffix (List.dropWhile_suffix _)))

theorem normalizePipeline_idem (l : List Char) :
    normalizePipeline (normalizePipeline l) = normalizePipeline l := by
  set u := ((l.map jsToLowerChar).flatMap nfdChar).filter
    (fun c => !isCombiningMark c) with hu
  have huClean : ∀ c ∈ u, CleanCh c := by
    intro c hc
    rw [hu, List.mem_filter] at hc
    obtain ⟨hmem, hnm⟩ := hc
    obtain ⟨c', hc', hcd⟩ := List.mem_flatMap.mp hmem
    obtain ⟨c0, _, rfl⟩ := List.mem_map.mp hc'
    exact cleanCh_of_nfd _ (jsToLowerChar_idem c0) c hcd (by simpa using hnm)
  have hw : normalizePipeline l = jsTrimList (collapseWsAux false u) := rfl
  set w := jsTrimList (collapseWsAux false u) with hwdef
  have hwClean : ∀ c ∈ w, CleanCh c := by
    intro c hc
    rcases collapse_subset false u c (jsTrimList_subset _ c hc) with h | h
    · exact huClean c h
    · rw [h]; exact cleanCh_space
  have hstage : ((w.map jsToLowerChar).flatMap nfdChar).filter
      (fun c => !isCombiningMark c) = w := by
    rw [map_lower_of_clean hwClean, flatMap_nfd_of_clean hwClean,
      filter_mark_of_clean hwClean]
  have hwWs : ∀ c ∈ w, isJsWhitespace c = true → c = ' ' := by
    intro c hc
    exact collapse_ws_space false u c (jsTrimList_subset _ c hc)
  have hwCh : List.Chain' noDoubleWs w := chain'_jsTrimList (collapse_chain false u)
  have hcoll : collapseWsAux false w = w := (collapse_id w hwWs hwCh).1
  have htrim : jsTrimList w = w := by
    refine jsTrimList_id w ?_ ?_
    · intro c hc
      exact jsTrimList_head_not_ws _ c (hwdef ▸ hc)
    · intro c hc
      exact jsTrimList_last_not_ws _ c (hwdef ▸ hc)
  show jsTrimList (collapseWsAux false (((w.map jsToLowerChar).flatMap nfdChar).filter
    (fun c => !isCombiningMark c))) = w
  rw [hstage, hcoll, htrim]

/-- C10: `normalizeText` (lower-case, NFD-decompose, strip combining marks,
collapse whitespace, trim) reaches a fixed point after one application:
normalized catalog keys and normalized scorer keys are compared in a
canonical form. -/
theorem C10_normalizeText_idempotent (s : String) :
    normalizeText (normalizeText s) = normalizeText s := by
  unfold normalizeText
  exact congrArg String.mk (normalizePipeline_idem s.data)

/-! ## Lemmas about the map model and the rendered regions -/

theorem jsMapGet_jsMapSet_self {α : Type} (m : List (String × α)) (k : String) (v : α) :
    jsMapGet (jsMapSet m k v) k = some v := by
  unfold jsMapSet jsMapGet
  by_cases hany : m.any (fun e => e.1 = k)
  · rw [if_pos hany]
    induction m with
    | nil => cases hany
    | cons e es ih =>
      by_cases he : e.1 = k
      · simp [List.find?_cons, he]
      · have hany' : es.any (fun e => e.1 = k) := by
          rcases List.any_eq_true.mp hany with ⟨x, hx, hxk⟩
          rcases List.mem_cons.mp hx with rfl | hx
          · exact absurd (by simpa using hxk) he
          · exact List.any_eq_true.mpr ⟨x, hx, hxk⟩
        have hd : (decide (e.1 = k)) = false := by simpa using he
        simp only [List.map_cons, if_neg he, List.find?_cons, hd]
        exact ih hany'
  · rw [if_neg hany]
    induction m with
    | nil => simp [List.find?_cons]
    | cons e es ih =>
      have he : ¬(e.1 = k) := by
        intro hk
        exact hany (List.any_eq_true.mpr ⟨e, List.mem_cons_self _ _, by simpa using hk⟩)
      have hany' : ¬es.any (fun e => e.1 = k) := by
        intro h
        rcases List.any_eq_true.mp h with ⟨x, hx, hxk⟩
        exact hany (List.any_eq_true.mpr ⟨x, List.mem_cons_of_mem e hx, hxk⟩)
      have hd : (decide (e.1 = k)) = false := by simpa using he
      simp only [List.cons_append, List.find?_cons, hd]
      exact ih hany'

theorem jsMapSet_values {α : Type} (m : List (String × α)) (k : String) (v : α)
    (P : α → Prop) (hm : ∀ e ∈ m, P e.2) (hv : P v) :
    ∀ e ∈ jsMapSet m k v, P e.2 := by
  intro e he
  unfold jsMapSet at he
  by_cases hany : m.any (fun x => x.1 = k)
  · rw [if_pos hany] at he
    obtain ⟨x, hx, hxe⟩ := List.mem_map.mp he
    by_cases hxk : x.1 = k
    · rw [if_pos hxk] at hxe
      rw [← hxe]
      exact hv
    · rw [if_neg hxk] at hxe
      rw [← hxe]
      exact hm x hx
  · rw [if_neg hany] at he
    rcases List.mem_append.mp he with h | h
    · exact hm e h
    · rw [List.mem_singleton.mp h]
      exact hv

theorem jsMapGet_values {α : Type} (m : List (String × α)) (k : String) (s : α)
    (P : α → Prop) (hm : ∀ e ∈ m, P e.2) (h : jsMapGet m k = some s) : P s := by
  unfold jsMapGet at h
  cases hf : m.find? (fun e => e.1 = k) with
  | none => rw [hf] at h; cases h
  | some e =>
    rw [hf] at h
    have he : e.2 = s := by simpa using h
    rw [← he]
    exact hm e (List.mem_of_find?_eq_some hf)

theorem rowIndexedSpec_append (f : String × EvaluationTopic → CellValue) :
    ∀ (l1 l2 : List (String × EvaluationTopic)) (pos : ℕ),
    rowIndexedSpec f pos (l1 ++ l2) =
      rowIndexedSpec f pos l1 ++ rowIndexedSpec f (pos + l1.length) l2 := by
  intro l1
  induction l1 with
  | nil => intro l2 pos; simp [rowIndexedSpec]
  | cons p ps ih =>
    intro l2 pos
    show (pos, f p) :: rowIndexedSpec f (pos + 1) (ps ++ l2) =
      ((pos, f p) :: rowIndexedSpec f (pos + 1) ps) ++
        rowIndexedSpec f (pos + (ps.length + 1)) l2
    rw [List.cons_append, ih]
    have h : pos + 1 + ps.length = pos + (ps.length + 1) := by omega
    rw [h]

theorem monitoreoTopicRow_filter3 (maps : EvalMaps) (r j : ℕ) (bn : String)
    (t : EvaluationTopic) :
    (monitoreoTopicRowCells maps r j bn t).filter (fun c => c.col == 3) =
      [{ row := r, col := 3, value := .str t.topic, font := some { size := 10 } }] := by
  unfold monitoreoTopicRowCells
  by_cases hj : j = 0
  · subst hj
    rfl
  · rw [if_neg hj]
    rfl

theorem monitoreoTopicsCells_filter3 (maps : EvalMaps) (bn : String) :
    ∀ (ts : List EvaluationTopic) (row j : ℕ),
    ((monitoreoTopicsCells maps bn ts row j).filter (fun c => c.col == 3)).map
      (fun c => (c.row, c.value)) =
      rowIndexedSpec (fun p => CellValue.str p.2.topic) row (ts.map (fun t => (bn, t))) := by
  intro ts
  induction ts with
  | nil => intro row j; rfl
  | cons t ts ih =>
    intro row j
    show (((monitoreoTopicRowCells maps row j bn t ++
      monitoreoTopicsCells maps bn ts (row + 1) (j + 1)).filter (fun c => c.col == 3)).map
        (fun c => (c.row, c.value))) = _
    rw [List.filter_append, List.map_append, monitoreoTopicRow_filter3, ih]
    rfl

theorem monitoreoBlocksCells_filter3 (maps : EvalMaps) :
    ∀ (bs : List EvaluationBlock) (row : ℕ),
    ((monitoreoBlocksCells maps bs row).1.filter (fun c => c.col == 3)).map
      (fun c => (c.row, c.value)) =
      rowIndexedSpec (fun p => CellValue.str p.2.topic) row (flattenTopics bs) := by
  intro bs
  induction bs with
  | nil => intro row; rfl
  | cons b bs ih =>
    intro row
    show ((((monitoreoTopicsCells maps b.blockName b.topics row 0) ++
        (monitoreoBlocksCells maps bs (row + b.topics.length)).1).filter
          (fun c => c.col == 3)).map (fun c => (c.row, c.value))) = _
    rw [List.filter_append, List.map_append, monitoreoTopicsCells_filter3, ih]
    show _ = rowIndexedSpec _ row (b.topics.map (fun t => (b.blockName, t)) ++ flattenTopics bs)
    rw [rowIndexedSpec_append]
    simp

theorem analysisDetailRow_filter4 (maps : EvalMaps) (r i : ℕ) (bn : String)
    (t : EvaluationTopic) :
    (analysisDetailRowCells maps r i bn t).filter (fun c => c.col == 4) =
      [{ row := r, col := 4, value := .str t.topic, font := some { size := 9 } }] := by
  rfl

theorem analysisDetailRow_filter5 (maps : EvalMaps) (r i : ℕ) (bn : String)
    (t : EvaluationTopic) :
    (analysisDetailRowCells maps r i bn t).filter (fun c => c.col == 5) =
      [{ row := r, col := 5, value := pointsToCell t.points }] := by
  rfl

theorem analysisDetailCells_filter4 (maps : EvalMaps) :
    ∀ (fl : List (String × EvaluationTopic)) (rowNum idx : ℕ),
    ((analysisDetailCells maps fl rowNum idx).filter (fun c => c.col == 4)).map
      (fun c => (c.row, c.value)) =
      rowIndexedSpec (fun p => CellValue.str p.2.topic) rowNum fl := by
  intro fl
  induction fl with
  | nil => intro rowNum idx; rfl
  | cons p ps ih =>
    intro rowNum idx
    show (((analysisDetailRowCells maps rowNum idx p.1 p.2 ++
      analysisDetailCells maps ps (rowNum + 1) (idx + 1)).filter (fun c => c.col == 4)).map
        (fun c => (c.row, c.value))) = _
    rw [List.filter_append, List.map_append, analysisDetailRow_filter4, ih]
    rfl

theorem analysisDetailCells_filter5 (maps : EvalMaps) :
    ∀ (fl : List (String × EvaluationTopic)) (rowNum idx : ℕ),
    ((analysisDetailCells maps fl rowNum idx).filter (fun c => c.col == 5)).map
      (fun c => (c.row, c.value)) =
      rowIndexedSpec (fun p => pointsToCell p.2.points) rowNum fl := by
  intro fl
  induction fl with
  | nil => intro rowNum idx; rfl
  | cons p ps ih =>
    intro rowNum idx
    show (((analysisDetailRowCells maps rowNum idx p.1 p.2 ++
      analysisDetailCells maps ps (rowNum + 1) (idx + 1)).filter (fun c => c.col == 5)).map
        (fun c => (c.row, c.value))) = _
    rw [List.filter_append, List.map_append, analysisDetailRow_filter5, ih]
    rfl

theorem analysisMatrixCells_values (maps : EvalMaps) :
    ∀ (fl : List (String × EvaluationTopic)) (col : ℕ),
    (analysisMatrixCells maps fl col).map (fun c => (c.col, c.value)) =
      rowIndexedSpec
        (fun p => (getTopicValueWithReason maps p.1 p.2.topic p.2).value) col fl := by
  intro fl
  induction fl with
  | nil => intro col; rfl
  | cons p ps ih =>
    intro col
    show ((analysisMatrixCell maps col p.1 p.2 :: analysisMatrixCells maps ps (col + 1)).map
      (fun c => (c.col, c.value))) = _
    rw [List.map_cons, ih]
    show ((analysisMatrixCell maps col p.1 p.2).col, (analysisMatrixCell maps col p.1 p.2).value) :: _ = _
    have hcv : (analysisMatrixCell maps col p.1 p.2).col = col ∧
        (analysisMatrixCell maps col p.1 p.2).value =
          (getTopicValueWithReason maps p.1 p.2.topic p.2).value := by
      unfold analysisMatrixCell
      dsimp only
      split_ifs <;> exact ⟨rfl, rfl⟩
    rw [hcv.1, hcv.2]
    rfl

/-- C2: reconciliation tries the five strategies in the stated order
(exact pair, normalized pair, topic only, block only, substring containment),
a scorer label differing from the catalog pair only up to normalization
(case/accents/whitespace) is resolved to that catalog topic and scored, and a
topic no strategy matches is rendered `Sin evaluar` — distinct from a zero
score, excluded from the highlight class, and still carrying an explanatory
note. -/
theorem C2_reconciliation_ordered_strategies :
    (∀ (maps : EvalMaps) (b t : String),
      lookupScore maps b t =
        ((jsMapGet maps.evaluationMap (b ++ "|" ++ t)).orElse fun _ =>
          ((jsMapGet maps.evaluationMap
              (normalizeText b ++ "|" ++ normalizeText t)).orElse fun _ =>
            ((jsMapGet maps.byTopicOnly t).orElse fun _ =>
              ((jsMapGet maps.byBlockOnly b).orElse fun _ =>
                lookupByContainment maps.evaluationMap t))))) ∧
    (∀ (ds : DetailedScore) (B T pb pt : String) (t : EvaluationTopic),
      parseCriterion ds.criterion = some (pb, pt) →
      normalizeText pb = normalizeText B →
      normalizeText pt = normalizeText T →
      t.applies = true → t.topic = T →
      lookupScore (buildEvalMaps [ds]) B T = some ds ∧
      (getTopicValueWithReason (buildEvalMaps [ds]) B T t).value = .num ds.score ∧
      (getTopicValueWithReason (buildEvalMaps [ds]) B T t).shouldHighlight = true) ∧
    (∀ (maps : EvalMaps) (B : String) (t : EvaluationTopic),
      t.applies = true → lookupScore maps B t.topic = none →
      getTopicValueWithReason maps B t.topic t =
        { value := .str "Sin evaluar",
          reason := "No se encontró evidencia suficiente en transcripción ni en capturas para evaluar este criterio",
          shouldHighlight := false } ∧
      ∀ col, (analysisMatrixCell maps col B t).fill = some "FFF2F2F2" ∧
        (analysisMatrixCell maps col B t).note =
          [{ size := 10,
             text := "No se encontró evidencia suficiente en transcripción ni en capturas para evaluar este criterio" }]) := by
  refine ⟨?_, ?_, ?_⟩
  · intro maps b t
    unfold lookupScore
    rcases h1 : jsMapGet maps.evaluationMap (b ++ "|" ++ t) with _ | s1 <;>
      rcases h2 : jsMapGet maps.evaluationMap
        (normalizeText b ++ "|" ++ normalizeText t) with _ | s2 <;>
      rcases h3 : jsMapGet maps.byTopicOnly t with _ | s3 <;>
      rcases h4 : jsMapGet maps.byBlockOnly b with _ | s4 <;>
      simp [Option.orElse]
  · intro ds B T pb pt t hparse hnb hnt happ htop
    have hmaps : buildEvalMaps [ds] =
        { evaluationMap := jsMapSet (jsMapSet [] (pb ++ "|" ++ pt) ds)
            (normalizeText pb ++ "|" ++ normalizeText pt) ds,
          byTopicOnly := jsMapSet [] pt ds,
          byBlockOnly := jsMapSet [] pb ds } := by
      unfold buildEvalMaps
      rw [List.foldl_cons, hparse]
      rfl
    have hall : ∀ e ∈ (buildEvalMaps [ds]).evaluationMap, e.2 = ds := by
      rw [hmaps]
      exact jsMapSet_values _ _ _ (fun v => v = ds)
        (jsMapSet_values _ _ _ (fun v => v = ds)
          (fun e he => absurd he (List.not_mem_nil e)) rfl) rfl
    have hgetN : jsMapGet (buildEvalMaps [ds]).evaluationMap
        (normalizeText B ++ "|" ++ normalizeText T) = some ds := by
      rw [hmaps, ← hnb, ← hnt]
      exact jsMapGet_jsMapSet_self _ _ _
    have hlook : lookupScore (buildEvalMaps [ds]) B T = some ds := by
      unfold lookupScore
      cases h1 : jsMapGet (buildEvalMaps [ds]).evaluationMap (B ++ "|" ++ T) with
      | some s => simpa using jsMapGet_values _ _ _ (fun x => x = ds) hall h1
      | none => rw [hgetN]
    refine ⟨hlook, ?_, ?_⟩ <;>
      · unfold getTopicValueWithReason
        rw [hlook, happ]
        by_cases hz : ds.score = 0 <;> simp [hz]
  · intro maps B t happ hlook
    have hres : getTopicValueWithReason maps B t.topic t =
        { value := .str "Sin evaluar",
          reason := "No se encontró evidencia suficiente en transcripción ni en capturas para evaluar este criterio",
          shouldHighlight := false } := by
      unfold getTopicValueWithReason
      rw [happ, hlook]
      rfl
    refine ⟨hres, ?_⟩
    intro col
    unfold analysisMatrixCell
    rw [hres]
    exact ⟨rfl, rfl⟩

/-- Witness for C2: the scorer label `Codificacion correcta del caso` (no
accent) under block `Front` resolves to the catalog topic `Codificación
correcta del caso`, while an unrelated label leaves the topic `Sin
evaluar`. -/
theorem C2_reconciliation_witness :
    lookupScore (buildEvalMaps [accentScore]) "Front" "Codificación correcta del caso" =
      some accentScore ∧
    (getTopicValueWithReason (buildEvalMaps [accentScore]) "Front"
      "Codificación correcta del caso" accentTopic).value = .num 5 ∧
    (getTopicValueWithReason (buildEvalMaps [unrelatedScore]) "Front"
      accentTopic.topic accentTopic).value = .str "Sin evaluar" ∧
    (analysisMatrixCell (buildEvalMaps [unrelatedScore]) 19 "Front" accentTopic).fill =
      some "FFF2F2F2" := by
  obtain ⟨-, h2, h3⟩ := C2_reconciliation_ordered_strategies
  obtain ⟨ha, hb, -⟩ := h2 accentScore "Front" "Codificación correcta del caso"
    "Front" "Codificacion correcta del caso" accentTopic
    (by decide) rfl (by decide) rfl rfl
  obtain ⟨hc, hd⟩ := h3 (buildEvalMaps [unrelatedScore]) "Front" accentTopic rfl (by decide)
  exact ⟨ha, hb, by rw [hc], (hd 19).1⟩

/-- C3: for a fixed `(auditInput, evaluation)` pair the generated workbook is
identical across runs except for the `created` timestamp (so any
serialization of it is byte-identical modulo that explicit field); the
timestamp is exactly the run's clock value; and the conditional score-cell
styling is a pure function of the score's comparison against the topic's
points (full / zero / partial), with no other inputs. -/
theorem C3_generateExcelReport_deterministic :
    (∀ (a : AuditInput) (e : EvaluationResult) (t1 t2 : ℕ),
      { (generateExcelReport a e t1).workbook with created := 0 } =
        { (generateExcelReport a e t2).workbook with created := 0 }) ∧
    (∀ (a : AuditInput) (e : EvaluationResult) (t : ℕ),
      (generateExcelReport a e t).workbook.created = t ∧
      (generateExcelReport a e t).workbook.creator = "Audit AI System") ∧
    (∀ (points : Points) (q1 q2 : ℚ),
      ((q1 = (match points with | .num n => (n : ℚ) | .na => 0)) ↔
        (q2 = (match points with | .num n => (n : ℚ) | .na => 0))) →
      ((q1 = 0) ↔ (q2 = 0)) →
      highlightStyling points (.num q1) = highlightStyling points (.num q2)) := by
  refine ⟨?_, ?_, ?_⟩
  · intro a e t1 t2
    rfl
  · intro a e t
    exact ⟨rfl, rfl⟩
  · intro points q1 q2 hmax hzero
    cases points with
    | num n =>
      have hm : (q1 = (n : ℚ)) ↔ (q2 = (n : ℚ)) := hmax
      unfold highlightStyling
      dsimp only
      by_cases h1 : q1 = (n : ℚ)
      · rw [if_pos h1, if_pos (hm.mp h1)]
      · rw [if_neg h1, if_neg (fun h => h1 (hm.mpr h))]
        by_cases h2 : q1 = 0
        · rw [if_pos h2, if_pos (hzero.mp h2)]
        · rw [if_neg h2, if_neg (fun h => h2 (hzero.mpr h))]
    | na =>
      have hm : (q1 = (0 : ℚ)) ↔ (q2 = (0 : ℚ)) := hmax
      unfold highlightStyling
      dsimp only
      by_cases h1 : q1 = (0 : ℚ)
      · rw [if_pos h1, if_pos (hm.mp h1)]
      · rw [if_neg h1, if_neg (fun h => h1 (hm.mpr h))]
        by_cases h2 : q1 = 0
        · exact absurd h2 h1
        · rw [if_neg h2, if_neg (fun h => h2 (hzero.mpr h))]

/-- Witness for C3: two runs at distinct clock values agree up to `created`,
and two distinct partial scores receive the same styling. -/
theorem C3_generateExcelReport_witness :
    { (generateExcelReport monitoreoAuditInput emptyEvaluation 111).workbook
        with created := 0 } =
      { (generateExcelReport monitoreoAuditInput emptyEvaluation 222).workbook
        with created := 0 } ∧
    highlightStyling (.num 5) (.num 3) = highlightStyling (.num 5) (.num 2) := by
  refine ⟨C3_generateExcelReport_deterministic.1 monitoreoAuditInput emptyEvaluation 111 222,
    C3_generateExcelReport_deterministic.2.2 (.num 5) 3 2 (by norm_num) (by norm_num)⟩

theorem monitoreoTopicRow_filter4 (maps : EvalMaps) (r j : ℕ) (bn : String)
    (t : EvaluationTopic) :
    (monitoreoTopicRowCells maps r j bn t).filter (fun c => c.col == 4) =
      [{ row := r, col := 4, value := (getTopicResult maps bn t.topic t).value,
         fill := (monitoreoDCellStyle t (getTopicResult maps bn t.topic t)).1,
         font := (monitoreoDCellStyle t (getTopicResult maps bn t.topic t)).2,
         note := monitoreoDCellNote t (getTopicResult maps bn t.topic t) }] := by
  unfold monitoreoTopicRowCells
  by_cases hj : j = 0
  · subst hj
    rfl
  · rw [if_neg hj]
    rfl

/-- C7 (amended): in both layout variants every catalog topic is rendered
exactly once, in catalog order and at consecutive positions (Monitoreo
`Rubros` column, Analisis `Criterio` column, Analisis matrix columns); in the
horizontal (Analisis) variant every topic's max-points value — in particular
every applicable topic's — is rendered verbatim in the `Puntaje Máximo`
weighting column; in the vertical (Monitoreo) variant the Ponderación-column
cell carries the obtained result and the max-points value appears only
inside the cell's annotation text (`Ponderación: p/p`); every scored topic's
justification is attached as a cell annotation — unconditionally in the
Analisis matrix, and in the Monitoreo variant for non-critical and critical
topics alike whenever the scorer's justification text is not the literal
`No aplica` (the companion counterexample exhibits the drop at exactly that
text). -/
theorem C7_topics_once_weighting_annotations :
    (∀ (maps : EvalMaps) (bs : List EvaluationBlock) (row : ℕ),
      ((monitoreoBlocksCells maps bs row).1.filter (fun c => c.col == 3)).map
        (fun c => (c.row, c.value)) =
        rowIndexedSpec (fun p => CellValue.str p.2.topic) row (flattenTopics bs)) ∧
    (∀ (maps : EvalMaps) (fl : List (String × EvaluationTopic)) (rowNum idx : ℕ),
      ((analysisDetailCells maps fl rowNum idx).filter (fun c => c.col == 4)).map
        (fun c => (c.row, c.value)) =
        rowIndexedSpec (fun p => CellValue.str p.2.topic) rowNum fl) ∧
    (∀ (maps : EvalMaps) (fl : List (String × EvaluationTopic)) (rowNum idx : ℕ),
      ((analysisDetailCells maps fl rowNum idx).filter (fun c => c.col == 5)).map
        (fun c => (c.row, c.value)) =
        rowIndexedSpec (fun p => pointsToCell p.2.points) rowNum fl) ∧
    (∀ (maps : EvalMaps) (fl : List (String × EvaluationTopic)) (col : ℕ),
      (analysisMatrixCells maps fl col).map (fun c => (c.col, c.value)) =
        rowIndexedSpec
          (fun p => (getTopicValueWithReason maps p.1 p.2.topic p.2).value) col fl) ∧
    (∀ (maps : EvalMaps) (col : ℕ) (bn : String) (t : EvaluationTopic),
      (getTopicValueWithReason maps bn t.topic t).shouldHighlight = true →
      (analysisMatrixCell maps col bn t).note =
        [{ size := 10, text := (getTopicValueWithReason maps bn t.topic t).reason }]) ∧
    (∀ (maps : EvalMaps) (row j : ℕ) (bn : String) (t : EvaluationTopic)
        (s : DetailedScore),
      t.applies = true → t.criticality ≠ "Crítico" →
      lookupScore maps bn t.topic = some s → s.observations ≠ "No aplica" →
      ((monitoreoTopicRowCells maps row j bn t).filter (fun c => c.col == 4)).map
        (fun c => c.note) =
        [[ { bold := true, size := 10,
             text := "Ponderación: " ++ pointsText t.points ++
               (match t.points with
                 | Points.num n => "/" ++ displayNum (n : ℚ)
                 | Points.na => "") ++ "\n" },
           { size := 10, text := jsOrStr (jsOrStr s.observations "") "Evaluado" } ]]) ∧
    (∀ (maps : EvalMaps) (row j : ℕ) (bn : String) (t : EvaluationTopic)
        (s : DetailedScore),
      t.applies = true → t.criticality = "Crítico" →
      lookupScore maps bn t.topic = some s → s.observations ≠ "No aplica" →
      ((monitoreoTopicRowCells maps row j bn t).filter (fun c => c.col == 4)).map
        (fun c => c.note) =
        [[ { bold := true, size := 10,
             text := "Ponderación: " ++ "Crítico" ++
               (match t.points with
                 | Points.num n => "/" ++ displayNum (n : ℚ)
                 | Points.na => "") ++ "\n" },
           { size := 10,
             text := jsOrStr (jsOrStr s.observations "")
               (if s.score > 0 then "Cumplió correctamente"
                 else "No cumplió - Error Crítico") } ]]) ∧
    (∀ (a : AuditInput) (e : EvaluationResult),
      ∀ c ∈ (monitoreoBlocksCells (buildEvalMaps e.detailedScores)
          (getCriteriaForCallType a.callType) 4).1,
        c ∈ (createMonitoreoSheet a e).cells) := by
  refine ⟨monitoreoBlocksCells_filter3, analysisDetailCells_filter4,
    analysisDetailCells_filter5, analysisMatrixCells_values, ?_, ?_, ?_, ?_⟩
  · intro maps col bn t h
    unfold analysisMatrixCell
    dsimp only
    rw [if_pos h]
  · intro maps row j bn t s happ hcrit hlook hobs
    have hres : getTopicResult maps bn t.topic t =
        { value := .num s.score,
          reason := jsOrStr (jsOrStr s.observations "") "Evaluado",
          isCritical := false } := by
      unfold getTopicResult
      rw [happ, hlook]
      simp [hcrit]
    have h1 : jsOrStr (jsOrStr s.observations "") "Evaluado" ≠ "" := by
      by_cases h : s.observations = "" <;> simp [jsOrStr, h]
    have h2 : jsOrStr (jsOrStr s.observations "") "Evaluado" ≠ "No aplica" := by
      by_cases h : s.observations = "" <;> simp [jsOrStr, h, hobs]
    rw [monitoreoTopicRow_filter4, hres]
    unfold monitoreoDCellNote
    rw [if_pos ⟨h1, h2⟩, if_neg hcrit]
    rfl
  · intro maps row j bn t s happ hcrit hlook hobs
    have hres : getTopicResult maps bn t.topic t =
        { value := .str (if s.score > 0 then "Cumple" else "No Cumple"),
          reason := jsOrStr (jsOrStr s.observations "")
            (if s.score > 0 then "Cumplió correctamente"
              else "No cumplió - Error Crítico"),
          isCritical := true } := by
      unfold getTopicResult
      rw [happ, hlook]
      by_cases hsc : s.score > 0 <;> simp [hcrit, hsc]
    have h1 : jsOrStr (jsOrStr s.observations "")
        (if s.score > 0 then "Cumplió correctamente"
          else "No cumplió - Error Crítico") ≠ "" := by
      by_cases h : s.observations = "" <;> by_cases hsc : s.score > 0 <;>
        simp [jsOrStr, h, hsc]
    have h2 : jsOrStr (jsOrStr s.observations "")
        (if s.score > 0 then "Cumplió correctamente"
          else "No cumplió - Error Crítico") ≠ "No aplica" := by
      by_cases h : s.observations = ""
      · by_cases hsc : s.score > 0 <;> simp [jsOrStr, h, hsc]
      · simp [jsOrStr, h, hobs]
    have hcond : jsOrStr (jsOrStr s.observations "")
        (if s.score > 0 then "Cumplió correctamente"
          else "No cumplió - Error Crítico") ≠ "" ∧
        jsOrStr (jsOrStr s.observations "")
          (if s.score > 0 then "Cumplió correctamente"
            else "No cumplió - Error Crítico") ≠ "No aplica" := ⟨h1, h2⟩
    rw [monitoreoTopicRow_filter4, hres]
    unfold monitoreoDCellNote
    rw [if_pos hcond, if_pos hcrit]
    rfl
  · intro a e c hc
    unfold createMonitoreoSheet
    dsimp only
    exact List.mem_append.mpr (Or.inl (List.mem_append.mpr (Or.inr hc)))

/-- Counterexample for C7 as stated, in two parts.  Weighting: in the
vertical (Monitoreo) layout the Falcon topic applies with 20 points, yet no
cell of the rendered sheet carries the value 20 — the max-points value is
not rendered verbatim in any weighting row/column of that variant.
Annotation: a reconciled 20-point Falcon score whose justification text is
the literal `No aplica` renders as a scored (numeric) Monitoreo cell with no
annotation at all — the justification is silently dropped. -/
theorem C7_weighting_vertical_counterexample :
    getCriteriaForCallType monitoreoAuditInput.callType = MONITOREO_CRITERIA ∧
    ((flattenTopics MONITOREO_CRITERIA).any fun p =>
      decide (p.2.points = Points.num 20) && p.2.applies) = true ∧
    ((createMonitoreoSheet monitoreoAuditInput emptyEvaluation).cells.all fun c =>
      decide (c.value ≠ CellValue.num 20)) = true ∧
    lookupScore (buildEvalMaps [naScore]) "Falcon" falconTopic.topic =
      some naScore ∧
    (getTopicResult (buildEvalMaps [naScore]) "Falcon" falconTopic.topic
      falconTopic).value = CellValue.num 20 ∧
    ((createMonitoreoSheet monitoreoAuditInput naEvaluation).cells.any fun c =>
      decide (c.value = CellValue.num 20) && decide (c.note = [])) = true := by
  refine ⟨by decide, by decide, by decide, by decide, by decide, by decide⟩

/-- Witness for C7 (amended): the scored Falcon topic's Monitoreo cell
annotation carries `Ponderación: 20/20` plus the justification, the scored
critical `Casos críticos` topic's Monitoreo cell annotation carries
`Ponderación: Crítico` plus the justification, and the scored Front topic's
Analisis matrix cell annotation carries its justification. -/
theorem C7_annotations_witness :
    ((monitoreoTopicRowCells (buildEvalMaps [falconScore]) 4 0 "Falcon"
        falconTopic).filter (fun c => c.col == 4)).map (fun c => c.note) =
      [[ { bold := true, size := 10, text := "Ponderación: 20/20\n" },
         { size := 10, text := "Todo correcto" } ]] ∧
    ((monitoreoTopicRowCells (buildEvalMaps [criticoScore]) 16 0
        "Casos críticos" criticoTopic).filter (fun c => c.col == 4)).map
        (fun c => c.note) =
      [[ { bold := true, size := 10, text := "Ponderación: Crítico\n" },
         { size := 10, text := "Se saltó el cierre de caso" } ]] ∧
    (analysisMatrixCell (buildEvalMaps [accentScore]) 9 "Front" accentTopic).note =
      [{ size := 10, text := "Caso codificado correctamente" }] := by
  obtain ⟨-, -, -, -, h5, h6, h7, -⟩ := C7_topics_once_weighting_annotations
  refine ⟨?_, ?_, ?_⟩
  · rw [h6 (buildEvalMaps [falconScore]) 4 0 "Falcon" falconTopic falconScore
      rfl (by decide) (by decide) (by decide)]
    decide
  · rw [h7 (buildEvalMaps [criticoScore]) 16 0 "Casos críticos" criticoTopic
      criticoScore rfl rfl (by decide) (by decide)]
    decide
  · rw [h5 (buildEvalMaps [accentScore]) 9 "Front" accentTopic (by decide)]
    decide

theorem lexLeNat_total (a b : List ℕ) : lexLeNat a b = true ∨ lexLeNat b a = true := by
  induction a generalizing b with
  | nil => exact Or.inl rfl
  | cons x xs ih =>
    cases b with
    | nil => exact Or.inr rfl
    | cons y ys =>
      unfold lexLeNat
      rcases Nat.lt_trichotomy x y with h | h | h
      · left
        rw [if_pos h]
      · subst h
        rcases ih ys with hiy | hiy
        · left
          rw [if_neg (Nat.lt_irrefl x), if_neg (Nat.lt_irrefl x)]
          exact hiy
        · right
          rw [if_neg (Nat.lt_irrefl x), if_neg (Nat.lt_irrefl x)]
          exact hiy
      · right
        rw [if_pos h]

theorem lexLeNat_trans {a b c : List ℕ} (hab : lexLeNat a b = true)
    (hbc : lexLeNat b c = true) : lexLeNat a c = true := by
  induction a generalizing b c with
  | nil => rfl
  | cons x xs ih =>
    cases b with
    | nil => cases hab
    | cons y ys =>
      cases c with
      | nil => cases hbc
      | cons z zs =>
        unfold lexLeNat at hab hbc ⊢
        by_cases hxy : x < y
        · have hyz : y ≤ z := by
            by_contra hc
            push_neg at hc
            rw [if_neg (by omega), if_pos (by omega)] at hbc
            cases hbc
          rw [if_pos (by omega)]
        · by_cases hyx : y < x
          · rw [if_neg hxy, if_pos hyx] at hab
            cases hab
          · have hxy' : x = y := by omega
            subst hxy'
            by_cases hxz : x < z
            · rw [if_pos hxz]
            · by_cases hzx : z < x
              · rw [if_neg (by omega), if_pos hzx] at hbc
                cases hbc
              · rw [if_neg hxz, if_neg hzx]
                rw [if_neg hxy, if_neg hyx] at hab
                rw [if_neg hxz, if_neg hzx] at hbc
                exact ih hab hbc

theorem lexLeNat_antisymm {a b : List ℕ} (hab : lexLeNat a b = true)
    (hba : lexLeNat b a = true) : a = b := by
  induction a generalizing b with
  | nil =>
    cases b with
    | nil => rfl
    | cons y ys => cases hba
  | cons x xs ih =>
    cases b with
    | nil => cases hab
    | cons y ys =>
      unfold lexLeNat at hab hba
      by_cases hxy : x < y
      · rw [if_neg (by omega), if_pos hxy] at hba
        cases hba
      · by_cases hyx : y < x
        · rw [if_pos hyx] at hba
          rw [if_neg hxy, if_pos hyx] at hab
          cases hab
        · have : x = y := by omega
          subst this
          rw [if_neg hxy, if_neg hxy] at hab hba
          rw [ih hab hba]

theorem charToNat_inj {c d : Char} (h : c.toNat = d.toNat) : c = d :=
  Char.ext (UInt32.toNat.inj h)

theorem strBytes_inj {s t : String} (h : strBytes s = strBytes t) : s = t := by
  apply String.ext
  unfold strBytes at h
  exact List.map_injective_iff.mpr (fun _ _ => charToNat_inj) h

theorem insertionSort_eq_of_perm {l1 l2 : List String} (h : l1.Perm l2) :
    List.insertionSort strRel l1 = List.insertionSort strRel l2 := by
  haveI : IsTotal String strRel :=
    ⟨fun a b => lexLeNat_total (strBytes a) (strBytes b)⟩
  haveI : IsTrans String strRel :=
    ⟨fun _ _ _ hab hbc => lexLeNat_trans hab hbc⟩
  haveI : IsAntisymm String strRel :=
    ⟨fun _ _ hab hba => strBytes_inj (lexLeNat_antisymm hab hba)⟩
  apply List.eq_of_perm_of_sorted (r := strRel)
  · exact (List.perm_insertionSort strRel l1).trans
      (h.trans (List.perm_insertionSort strRel l2).symm)
  · exact List.sorted_insertionSort strRel l1
  · exact List.sorted_insertionSort strRel l2

/-- Count of occurrences of the changed image's old hash strictly drops when
that image's hash changes and every other image keeps its hash. -/
theorem count_map_changed (f1 f2 : String → String) (p0 : String)
    (hne : f1 p0 ≠ f2 p0) : ∀ imgs : List String, p0 ∈ imgs →
    (∀ p ∈ imgs, p ≠ p0 → f1 p = f2 p) →
    List.count (f1 p0) (imgs.map f2) < List.count (f1 p0) (imgs.map f1) := by
  intro imgs
  induction imgs with
  | nil => intro hmem; cases hmem
  | cons q qs ih =>
    intro hmem hsame
    rw [List.map_cons, List.map_cons, List.count_cons, List.count_cons]
    by_cases hq : q = p0
    · subst hq
      have hbeq : (f2 q == f1 q) = false := by
        simp only [beq_eq_false_iff_ne]
        exact fun h => hne h.symm
      simp only [beq_self_eq_true, hbeq, if_true]
      simp only [Bool.false_eq_true, if_false]
      by_cases hmem2 : q ∈ qs
      · have hlt := ih hmem2 (fun p hp hp0 => hsame p (List.mem_cons_of_mem q hp) hp0)
        omega
      · have hmapeq : qs.map f1 = qs.map f2 := by
          apply List.map_congr_left
          intro p hp
          exact hsame p (List.mem_cons_of_mem q hp) (fun h => hmem2 (h ▸ hp))
        rw [hmapeq]
        omega
    · have hf : f1 q = f2 q := hsame q (List.mem_cons_self _ _) hq
      rw [hf]
      have hmem2 : p0 ∈ qs := by
        rcases List.mem_cons.mp hmem with h | h
        · exact absurd h.symm hq
        · exact h
      have hlt := ih hmem2 (fun p hp hp0 => hsame p (List.mem_cons_of_mem q hp) hp0)
      exact Nat.add_lt_add_right hlt _

theorem strBytes_length (s : String) : (strBytes s).length = s.length :=
  List.length_map _ _

theorem flatMap_strBytes_fixed_inj : ∀ (L1 L2 : List String),
    (∀ x ∈ L1, x.length = 64) → (∀ x ∈ L2, x.length = 64) →
    L1.flatMap strBytes = L2.flatMap strBytes → L1 = L2 := by
  intro L1
  induction L1 with
  | nil =>
    intro L2 _ h2 hj
    cases L2 with
    | nil => rfl
    | cons y ys =>
      exfalso
      have hl : ((y :: ys).flatMap strBytes).length = 0 := by rw [← hj]; rfl
      rw [List.flatMap_cons, List.length_append, strBytes_length,
        h2 y (List.mem_cons_self _ _)] at hl
      omega
  | cons x xs ih =>
    intro L2 h1 h2 hj
    cases L2 with
    | nil =>
      exfalso
      have hl : ((x :: xs).flatMap strBytes).length = 0 := by rw [hj]; rfl
      rw [List.flatMap_cons, List.length_append, strBytes_length,
        h1 x (List.mem_cons_self _ _)] at hl
      omega
    | cons y ys =>
      rw [List.flatMap_cons, List.flatMap_cons] at hj
      have hlen : (strBytes x).length = (strBytes y).length := by
        rw [strBytes_length, strBytes_length, h1 x (List.mem_cons_self _ _),
          h2 y (List.mem_cons_self _ _)]
      obtain ⟨hxy, hrest⟩ := List.append_inj hj hlen
      rw [strBytes_inj hxy, ih ys (fun z hz => h1 z (List.mem_cons_of_mem x hz))
        (fun z hz => h2 z (List.mem_cons_of_mem y hz)) hrest]

/-- C4: the cache key hashes the audio content first, then the sorted image
content hashes; it is invariant under any permutation of the image path
list; and it separates distinct audio contents and single-file content
changes up to hash collisions: equal keys force either equal content hashes
at the changed file or an explicit collision of the digest function. -/
theorem C4_generateCacheKey_content_addressed :
    (∀ (hash : List ℕ → String) (content : String → List ℕ)
        (audioPath : String) (imgs1 imgs2 : List String),
      imgs1.Perm imgs2 →
      generateCacheKey hash content audioPath imgs1 =
        generateCacheKey hash content audioPath imgs2) ∧
    (∀ (hash : List ℕ → String) (content : String → List ℕ)
        (audioPath : String) (imgs : List String),
      generateCacheKey hash content audioPath imgs =
        hash (strBytes (hash (content audioPath)) ++
          (List.insertionSort strRel (imgs.map fun p => hash (content p))).flatMap
            strBytes)) ∧
    (∀ (hash : List ℕ → String) (c1 c2 : String → List ℕ)
        (audioPath : String) (imgs : List String),
      (∀ p ∈ imgs, c1 p = c2 p) →
      generateCacheKey hash c1 audioPath imgs =
        generateCacheKey hash c2 audioPath imgs →
      hash (c1 audioPath) = hash (c2 audioPath) ∨
        ∃ x y : List ℕ, x ≠ y ∧ hash x = hash y) ∧
    (∀ (hash : List ℕ → String) (c1 c2 : String → List ℕ)
        (audioPath : String) (imgs : List String) (p0 : String),
      p0 ∈ imgs → c1 audioPath = c2 audioPath →
      (∀ p ∈ imgs, p ≠ p0 → c1 p = c2 p) →
      (∀ p ∈ imgs, (hash (c1 p)).length = 64 ∧ (hash (c2 p)).length = 64) →
      generateCacheKey hash c1 audioPath imgs =
        generateCacheKey hash c2 audioPath imgs →
      hash (c1 p0) = hash (c2 p0) ∨
        ∃ x y : List ℕ, x ≠ y ∧ hash x = hash y) := by
  refine ⟨?_, ?_, ?_, ?_⟩
  · intro hash content audioPath imgs1 imgs2 hperm
    unfold generateCacheKey
    rw [insertionSort_eq_of_perm (hperm.map fun p => hash (content p))]
  · intro hash content audioPath imgs
    rfl
  · intro hash c1 c2 audioPath imgs himgs heq
    by_cases ha : hash (c1 audioPath) = hash (c2 audioPath)
    · exact Or.inl ha
    · right
      have himg : (imgs.map fun p => hash (c1 p)) = imgs.map fun p => hash (c2 p) :=
        List.map_congr_left fun p hp => by rw [himgs p hp]
      refine ⟨(hash (c1 audioPath) ::
          List.insertionSort strRel (imgs.map fun p => hash (c1 p))).flatMap strBytes,
        (hash (c2 audioPath) ::
          List.insertionSort strRel (imgs.map fun p => hash (c2 p))).flatMap strBytes,
        ?_, heq⟩
      intro hx
      rw [List.flatMap_cons, List.flatMap_cons, himg] at hx
      exact ha (strBytes_inj (List.append_cancel_right hx))
  · intro hash c1 c2 audioPath imgs p0 hmem haud hsame hlen heq
    by_cases hp : hash (c1 p0) = hash (c2 p0)
    · exact Or.inl hp
    · right
      refine ⟨(hash (c1 audioPath) ::
          List.insertionSort strRel (imgs.map fun p => hash (c1 p))).flatMap strBytes,
        (hash (c2 audioPath) ::
          List.insertionSort strRel (imgs.map fun p => hash (c2 p))).flatMap strBytes,
        ?_, heq⟩
      intro hx
      rw [List.flatMap_cons, List.flatMap_cons, haud] at hx
      have hsorted := flatMap_strBytes_fixed_inj _ _
        (fun x hxm => by
          obtain ⟨p, hpm, rfl⟩ := List.mem_map.mp
            ((List.perm_insertionSort strRel _).mem_iff.mp hxm)
          exact (hlen p hpm).1)
        (fun x hxm => by
          obtain ⟨p, hpm, rfl⟩ := List.mem_map.mp
            ((List.perm_insertionSort strRel _).mem_iff.mp hxm)
          exact (hlen p hpm).2)
        (List.append_cancel_left hx)
      have hcount : List.count (hash (c1 p0)) (imgs.map fun p => hash (c2 p)) <
          List.count (hash (c1 p0)) (imgs.map fun p => hash (c1 p)) :=
        count_map_changed (fun p => hash (c1 p)) (fun p => hash (c2 p)) p0 hp imgs
          hmem (fun p hpm hp0 => by
            show hash (c1 p) = hash (c2 p)
            rw [hsame p hpm hp0])
      have hc1 := (List.perm_insertionSort strRel
        (imgs.map fun p => hash (c1 p))).count_eq (hash (c1 p0))
      have hc2 := (List.perm_insertionSort strRel
        (imgs.map fun p => hash (c2 p))).count_eq (hash (c1 p0))
      rw [hsorted] at hc1
      omega

/-- Witness for C4: a concrete permutation of two image paths leaves the key
unchanged, and the audio-sensitivity disjunction is discharged on a concrete
(collision-heavy) hash. -/
theorem C4_generateCacheKey_witness :
    generateCacheKey digitHash contentA "audio.mp3" ["img1.png", "img2.png"] =
      generateCacheKey digitHash contentA "audio.mp3" ["img2.png", "img1.png"] ∧
    constHash64 (contentA "audio.mp3") = constHash64 (contentB "audio.mp3") := by
  constructor
  · exact C4_generateCacheKey_content_addressed.1 digitHash contentA "audio.mp3"
      ["img1.png", "img2.png"] ["img2.png", "img1.png"] (by decide)
  · rcases C4_generateCacheKey_content_addressed.2.2.1 constHash64 contentA contentB
      "audio.mp3" ["img1.png", "img2.png"] (by decide) (by decide) with h | _
    · exact h
    · rfl

/-- C5: `get` misses exactly when the key is absent, the referenced Excel
artifact no longer exists, or the entry is older than the TTL; a miss with
an entry present evicts that entry from the index (self-healing); a hit
leaves the index untouched and returns the stored pair; after `set` with
the same media, `get` returns the stored result provided the artifact still
exists and the TTL (default 168 hours) has not elapsed. -/
theorem C5_cacheGet_miss_evict_roundtrip :
    (∀ (hash : List ℕ → String) (content : String → List ℕ)
        (excelExists : String → Bool) (now : ℤ) (maxAgeHours : ℕ)
        (index : List (String × CacheEntry)) (audioPath : String)
        (imagePaths : List String),
      (cacheGet hash content excelExists now maxAgeHours index audioPath
          imagePaths).1 = none ↔
        jsMapGet index (generateCacheKey hash content audioPath imagePaths) =
            none ∨
          ∃ e, jsMapGet index
                (generateCacheKey hash content audioPath imagePaths) = some e ∧
              (excelExists e.excelFilename = false ∨
                ageInHours now e.timestamp > (maxAgeHours : ℚ))) ∧
    (∀ (hash : List ℕ → String) (content : String → List ℕ)
        (excelExists : String → Bool) (now : ℤ) (maxAgeHours : ℕ)
        (index : List (String × CacheEntry)) (audioPath : String)
        (imagePaths : List String) (e : CacheEntry),
      jsMapGet index (generateCacheKey hash content audioPath imagePaths) =
          some e →
      (excelExists e.excelFilename = false ∨
        ageInHours now e.timestamp > (maxAgeHours : ℚ)) →
      cacheGet hash content excelExists now maxAgeHours index audioPath
          imagePaths =
        (none, jsMapDelete index
          (generateCacheKey hash content audioPath imagePaths))) ∧
    (∀ (hash : List ℕ → String) (content : String → List ℕ)
        (excelExists : String → Bool) (now : ℤ) (maxAgeHours : ℕ)
        (index : List (String × CacheEntry)) (audioPath : String)
        (imagePaths : List String) (e : CacheEntry),
      jsMapGet index (generateCacheKey hash content audioPath imagePaths) =
          some e →
      excelExists e.excelFilename = true →
      ageInHours now e.timestamp ≤ (maxAgeHours : ℚ) →
      cacheGet hash content excelExists now maxAgeHours index audioPath
          imagePaths = (some (e.result, e.excelFilename), index)) ∧
    (∀ (hash : List ℕ → String) (content : String → List ℕ)
        (excelExists : String → Bool) (now1 now2 : ℤ) (maxAgeHours : ℕ)
        (index : List (String × CacheEntry)) (audioPath : String)
        (imagePaths : List String) (result : EvaluationResult)
        (excelFilename executiveId callType : String),
      excelExists excelFilename = true →
      ageInHours now2 now1 ≤ (maxAgeHours : ℚ) →
      (cacheGet hash content excelExists now2 maxAgeHours
          (cacheSet hash content now1 index audioPath imagePaths result
            excelFilename executiveId callType)
          audioPath imagePaths).1 = some (result, excelFilename)) ∧
    defaultMaxAgeHours = 168 := by
  refine ⟨?_, ?_, ?_, ?_, rfl⟩
  · intro hash content excelExists now maxAgeHours index audioPath imagePaths
    unfold cacheGet cacheGetEntry
    cases hj : jsMapGet index (generateCacheKey hash content audioPath
        imagePaths) with
    | none =>
      constructor
      · intro _
        exact Or.inl rfl
      · intro _
        rfl
    | some e =>
      dsimp only
      by_cases hex : excelExists e.excelFilename = false
      · rw [if_pos hex]
        constructor
        · intro _
          exact Or.inr ⟨e, rfl, Or.inl hex⟩
        · intro _
          rfl
      · rw [if_neg hex]
        by_cases hage : ageInHours now e.timestamp > (maxAgeHours : ℚ)
        · rw [if_pos hage]
          constructor
          · intro _
            exact Or.inr ⟨e, rfl, Or.inr hage⟩
          · intro _
            rfl
        · rw [if_neg hage]
          constructor
          · intro h
            exact absurd h (Option.some_ne_none _)
          · rintro (h | ⟨e', he', hbad⟩)
            · exact absurd h (Option.some_ne_none e)
            · injection he' with he'
              subst he'
              rcases hbad with hb | hb
              · exact absurd hb hex
              · exact absurd hb hage
  · intro hash content excelExists now maxAgeHours index audioPath imagePaths
      e hj hbad
    unfold cacheGet cacheGetEntry
    rw [hj]
    dsimp only
    by_cases hex : excelExists e.excelFilename = false
    · rw [if_pos hex]
    · rw [if_neg hex]
      rcases hbad with hb | hb
      · exact absurd hb hex
      · rw [if_pos hb]
  · intro hash content excelExists now maxAgeHours index audioPath imagePaths
      e hj hex hle
    unfold cacheGet cacheGetEntry
    rw [hj]
    dsimp only
    have hexf : ¬ excelExists e.excelFilename = false := by
      rw [hex]
      decide
    rw [if_neg hexf, if_neg (not_lt.mpr hle)]
  · intro hash content excelExists now1 now2 maxAgeHours index audioPath
      imagePaths result excelFilename executiveId callType hex hle
    unfold cacheGet cacheSet cacheGetEntry
    rw [jsMapGet_jsMapSet_self]
    dsimp only
    have hexf : ¬ excelExists excelFilename = false := by
      rw [hex]
      decide
    rw [if_neg hexf, if_neg (not_lt.mpr hle)]

/-- Witness for C5: a concrete stale entry (artifact deleted out-of-band) is
evicted, and a concrete put-then-get one hour later returns the stored
result. -/
theorem C5_cacheGet_witness :
    cacheGet digitHash contentA (fun _ => false) 0 defaultMaxAgeHours
        staleIndex "audio.mp3" [] =
      (none, jsMapDelete staleIndex
        (generateCacheKey digitHash contentA "audio.mp3" [])) ∧
    (cacheGet digitHash contentA (fun _ => true) 3600000 defaultMaxAgeHours
        (cacheSet digitHash contentA 0 [] "audio.mp3" ["img1.png"]
          emptyEvaluation "report.xlsx" "E1" "FRAUDE")
        "audio.mp3" ["img1.png"]).1 = some (emptyEvaluation, "report.xlsx") := by
  constructor
  · exact C5_cacheGet_miss_evict_roundtrip.2.1 digitHash contentA
      (fun _ => false) 0 defaultMaxAgeHours staleIndex "audio.mp3" []
      staleEntry rfl (Or.inl rfl)
  · exact C5_cacheGet_miss_evict_roundtrip.2.2.2.1 digitHash contentA
      (fun _ => true) 0 3600000 defaultMaxAgeHours [] "audio.mp3" ["img1.png"]
      emptyEvaluation "report.xlsx" "E1" "FRAUDE" rfl
      (by norm_num [ageInHours, defaultMaxAgeHours])

theorem runAttempts_congr (r1 r2 : ℕ → AttemptOutcome) :
    ∀ (n a : ℕ), (∀ i, a < i → i ≤ a + n → r1 i = r2 i) →
    runAttempts r1 a n = runAttempts r2 a n := by
  intro n
  induction n with
  | zero => intro a _; rfl
  | succ m ih =>
    intro a h
    unfold runAttempts
    rw [h (a + 1) (Nat.lt_succ_self a) (by omega)]
    cases attemptResult (r2 (a + 1)) with
    | some r => rfl
    | none =>
      dsimp only
      exact ih (a + 1) (fun i hi hi2 => h i (by omega) (by omega))

theorem runAttempts_some_attempt (respond : ℕ → AttemptOutcome) :
    ∀ (n a : ℕ) (r : String × String), runAttempts respond a n = some r →
    ∃ i, a < i ∧ i ≤ a + n ∧ attemptResult (respond i) = some r := by
  intro n
  induction n with
  | zero => intro a r h; cases h
  | succ m ih =>
    intro a r h
    unfold runAttempts at h
    cases ha : attemptResult (respond (a + 1)) with
    | some r0 =>
      rw [ha] at h
      cases h
      exact ⟨a + 1, Nat.lt_succ_self a, by omega, ha⟩
    | none =>
      rw [ha] at h
      obtain ⟨i, hi1, hi2, hi3⟩ := ih (a + 1) r h
      exact ⟨i, by omega, by omega, hi3⟩

theorem jsMapPush_forall {α : Type} (Q : String × List α → Prop)
    (m : List (String × List α)) (k : String) (v : α)
    (hm : ∀ pr ∈ m, Q pr)
    (hupd : ∀ pr ∈ m, pr.1 = k → Q (k, pr.2 ++ [v]))
    (hnew : Q (k, [v])) :
    ∀ pr ∈ jsMapPush m k v, Q pr := by
  intro pr hpr
  unfold jsMapPush at hpr
  by_cases hany : m.any (fun e => e.1 = k)
  · rw [if_pos hany] at hpr
    obtain ⟨e, he, hfe⟩ := List.mem_map.mp hpr
    by_cases hek : e.1 = k
    · rw [if_pos hek] at hfe
      rw [← hfe, hek]
      exact hupd e he hek
    · rw [if_neg hek] at hfe
      rw [← hfe]
      exact hm e he
  · rw [if_neg hany] at hpr
    rcases List.mem_append.mp hpr with h | h
    · exact hm pr h
    · rw [List.mem_singleton.mp h]
      exact hnew

theorem foldl_evidence_congr (r1 r2 : String → ℕ → AttemptOutcome) :
    ∀ (paths : List String) (acc : List (String × List VisualRecord)),
    (∀ p ∈ paths, processImage (r1 p) = processImage (r2 p)) →
    paths.foldl (evidenceStep r1) acc = paths.foldl (evidenceStep r2) acc := by
  intro paths
  induction paths with
  | nil => intro acc _; rfl
  | cons q qs ih =>
    intro acc h
    rw [List.foldl_cons, List.foldl_cons]
    have hq : evidenceStep r1 acc q = evidenceStep r2 acc q := by
      unfold evidenceStep
      rw [h q (List.mem_cons_self _ _)]
    rw [hq]
    exact ih _ (fun p hp => h p (List.mem_cons_of_mem q hp))

theorem foldl_evidence_invariant (respond : String → ℕ → AttemptOutcome)
    (all : List String) :
    ∀ (paths : List String) (acc : List (String × List VisualRecord)),
    (∀ p ∈ paths, p ∈ all) →
    (∀ pr ∈ acc, pr.2 ≠ [] ∧ ∀ rec ∈ pr.2, ∃ p ∈ all,
      processImage (respond p) = some (pr.1, rec.data) ∧ rec.imagePath = p) →
    ∀ pr ∈ paths.foldl (evidenceStep respond) acc,
      pr.2 ≠ [] ∧ ∀ rec ∈ pr.2, ∃ p ∈ all,
        processImage (respond p) = some (pr.1, rec.data) ∧ rec.imagePath = p := by
  intro paths
  induction paths with
  | nil => intro acc _ hacc; exact hacc
  | cons q qs ih =>
    intro acc hsub hacc
    rw [List.foldl_cons]
    refine ih _ (fun p hp => hsub p (List.mem_cons_of_mem q hp)) ?_
    unfold evidenceStep
    cases hq : processImage (respond q) with
    | none => exact hacc
    | some sd =>
      obtain ⟨s, d⟩ := sd
      refine jsMapPush_forall _ acc s ⟨q, d⟩ hacc ?_ ?_
      · intro pr hpr hprk
        obtain ⟨hne, hrec⟩ := hacc pr hpr
        refine ⟨by simp, ?_⟩
        intro rec hrecm
        rcases List.mem_append.mp hrecm with h | h
        · obtain ⟨p, hp, hpi, hpn⟩ := hrec rec h
          exact ⟨p, hp, by rw [← hprk]; exact hpi, hpn⟩
        · rw [List.mem_singleton.mp h]
          exact ⟨q, hsub q (List.mem_cons_self _ _), hq, rfl⟩
      · refine ⟨by simp, ?_⟩
        intro rec hrecm
        rw [List.mem_singleton.mp hrecm]
        exact ⟨q, hsub q (List.mem_cons_self _ _), hq, rfl⟩

/-- C6: the visual evidence extractor consults at most `maxAttempts = 3`
attempts per image (the output is determined by attempts 1..3 of each
listed image), stops at the first successful attempt, skips an image whose
three attempts all fail without fabricating a record while the rest of the
batch proceeds unchanged, and groups a record under a system only when some
attempt parsed to a truthy `system` tag together with a present `data`
object. -/
theorem C6_extractVisualEvidence_retry_skip_group :
    (∀ (respond1 respond2 : String → ℕ → AttemptOutcome)
        (imagePaths : List String),
      (∀ p ∈ imagePaths, ∀ i, 1 ≤ i → i ≤ maxAttempts →
        respond1 p i = respond2 p i) →
      extractVisualEvidenceEnhanced respond1 imagePaths =
        extractVisualEvidenceEnhanced respond2 imagePaths) ∧
    maxAttempts = 3 ∧
    (∀ (respond : ℕ → AttemptOutcome) (r : String × String),
      attemptResult (respond 1) = some r → processImage respond = some r) ∧
    (∀ (respond : String → ℕ → AttemptOutcome) (pre post : List String)
        (bad : String),
      processImage (respond bad) = none →
      extractVisualEvidenceEnhanced respond (pre ++ bad :: post) =
        extractVisualEvidenceEnhanced respond (pre ++ post)) ∧
    (∀ (respond : String → ℕ → AttemptOutcome) (imagePaths : List String)
        (pr : String × List VisualRecord),
      pr ∈ extractVisualEvidenceEnhanced respond imagePaths →
      pr.2 ≠ [] ∧ ∀ rec ∈ pr.2, ∃ p ∈ imagePaths,
        processImage (respond p) = some (pr.1, rec.data) ∧
          rec.imagePath = p) ∧
    (∀ (respond : ℕ → AttemptOutcome) (s d : String),
      processImage respond = some (s, d) →
      s ≠ "" ∧ ∃ i, 1 ≤ i ∧ i ≤ maxAttempts ∧
        respond i = AttemptOutcome.parsed (some s) (some d)) := by
  refine ⟨?_, rfl, ?_, ?_, ?_, ?_⟩
  · intro respond1 respond2 imagePaths h
    unfold extractVisualEvidenceEnhanced
    refine foldl_evidence_congr respond1 respond2 imagePaths [] ?_
    intro p hp
    unfold processImage
    exact runAttempts_congr (respond1 p) (respond2 p) maxAttempts 0
      (fun i hi1 hi2 => h p hp i hi1 (by omega))
  · intro respond r h
    unfold processImage maxAttempts runAttempts
    rw [h]
  · intro respond pre post bad hbad
    unfold extractVisualEvidenceEnhanced
    rw [List.foldl_append, List.foldl_append, List.foldl_cons]
    have hstep : evidenceStep respond (pre.foldl (evidenceStep respond) []) bad
        = pre.foldl (evidenceStep respond) [] := by
      unfold evidenceStep
      rw [hbad]
    rw [hstep]
  · intro respond imagePaths pr hpr
    exact foldl_evidence_invariant respond imagePaths imagePaths []
      (fun p hp => hp) (fun pr hpr => absurd hpr (List.not_mem_nil pr)) pr hpr
  · intro respond s d h
    obtain ⟨i, hi1, hi2, hi3⟩ :=
      runAttempts_some_attempt respond maxAttempts 0 (s, d) h
    cases ho : respond i with
    | failure => rw [ho] at hi3; cases hi3
    | parsed system data =>
      rw [ho] at hi3
      cases system with
      | none => cases hi3
      | some s0 =>
        cases data with
        | none => cases hi3
        | some d0 =>
          unfold attemptResult at hi3
          dsimp only at hi3
          by_cases hs0 : s0 = ""
          · rw [if_pos hs0] at hi3; cases hi3
          · rw [if_neg hs0] at hi3
            injection hi3 with hi3
            injection hi3 with hs hd
            subst hs
            subst hd
            exact ⟨hs0, i, hi1, by omega, ho⟩

/-- Witness for C6: with a concrete oracle where `bad.png` always fails and
other images succeed on the second attempt, the batch result equals the
result with `bad.png` removed, and evaluates to the single FALCON group
holding the two good images. -/
theorem C6_extractVisualEvidence_witness :
    extractVisualEvidenceEnhanced respondGood
        ["img1.png", "bad.png", "img2.png"] =
      extractVisualEvidenceEnhanced respondGood ["img1.png", "img2.png"] ∧
    extractVisualEvidenceEnhanced respondGood
        ["img1.png", "bad.png", "img2.png"] =
      [("FALCON", [{ imagePath := "img1.png", data := "caso 123" },
        { imagePath := "img2.png", data := "caso 123" }])] := by
  constructor
  · exact C6_extractVisualEvidence_retry_skip_group.2.2.2.1 respondGood
      ["img1.png"] ["img2.png"] "bad.png" rfl
  · decide
